import Mathlib

/-!
Shallow embedding of the fluxway window-manager core (crates/fluxway-core
and the legacy src/ crate) and proofs about its layout engine, state
store, orchestrator and command interpreter.

Modelling conventions:
* `u32` is modelled as `Nat` and `i32` as `Int`; subtraction on `Nat`
  is truncated, which coincides with Rust `saturating_sub`.  Where a
  Rust integer cast wraps and the wrap matters, the reduction modulo
  `2^32` is written explicitly.
* `f64` values (layout ratios, pointer coordinates) are modelled as
  exact rationals; binary floating-point rounding of products is
  abstracted away.
* Rust's `f64::clamp`, which panics when `min > max`, is modelled as an
  `Option`-returning function (`none` = panic).
* `HashMap`/`IndexMap` are modelled as association lists with
  replace-in-place insertion, so iteration order matches `IndexMap`.
-/

namespace Fluxway

/-- Geometry of a rectangular region (state.rs). -/
structure Geometry where
  x : Int
  y : Int
  width : Nat
  height : Nat
deriving Repr, DecidableEq

instance : Inhabited Geometry := ⟨⟨0, 0, 0, 0⟩⟩

/-- `Geometry::new`. -/
def Geometry.new (x y : Int) (width height : Nat) : Geometry :=
  ⟨x, y, width, height⟩

/-- `Geometry::contains`. -/
def Geometry.containsPt (g : Geometry) (x y : Int) : Bool :=
  x ≥ g.x && x < g.x + (g.width : Int) && y ≥ g.y && y < g.y + (g.height : Int)

/-- Rust `as u32` applied to a non-negative `f64`: truncation toward
zero, saturating at 0 for negative inputs (here: floor, clamped at 0). -/
def floorNatQ (q : ℚ) : Nat := (⌊q⌋).toNat

/-- Rust `as u32` applied to an `i32`: wrapping conversion, reduction
modulo `2^32` written explicitly. -/
def intToU32 (v : Int) : Nat := (v % 4294967296).toNat

/-- Rust `f64::clamp`: panics (`none`) when `lo > hi`, otherwise
clamps into `[lo, hi]`. -/
def clampQ (x lo hi : ℚ) : Option ℚ :=
  if lo ≤ hi then some (if x < lo then lo else if x > hi then hi else x) else none

-- ── layout.rs ────────────────────────────────────────────────────

/-- `ContainerId` (layout.rs). -/
abbrev ContainerId := Nat

/-- `WindowId` (window.rs). -/
abbrev WindowId := Nat

/-- `SplitDirection` (layout.rs). -/
inductive SplitDirection where
  | horizontal
  | vertical
deriving Repr, DecidableEq

/-- `LayoutMode` (layout.rs). -/
inductive LayoutMode where
  | split
  | tabbed
  | stacked
deriving Repr, DecidableEq

/-- `LayoutNode` (layout.rs). -/
inductive LayoutNode where
  | container (id : ContainerId)
  | window (id : WindowId)
deriving Repr, DecidableEq

/-- `Container` (layout.rs).  The Rust global atomic id counter is
modelled by passing fresh ids explicitly where containers are created. -/
structure Container where
  id : ContainerId
  parent : Option ContainerId
  children : List LayoutNode
  layout : LayoutMode
  split_direction : SplitDirection
  ratios : List ℚ
  focused_child : Nat
  geometry : Geometry
  gap : Nat
deriving Repr, DecidableEq

/-- `Container::new` (modulo the global id counter, passed explicitly). -/
def Container.new (id : ContainerId) (layout : LayoutMode)
    (split_direction : SplitDirection) : Container :=
  ⟨id, none, [], layout, split_direction, [], 0, default, 4⟩

/-- `Container::recalculate_ratios`. -/
def Container.recalculate_ratios (c : Container) : Container :=
  let n := c.children.length
  if n > 0 then
    { c with ratios := List.replicate n (1 / (n : ℚ)) }
  else
    { c with ratios := [] }

/-- `Container::add_child`. -/
def Container.add_child (c : Container) (node : LayoutNode) : Container :=
  Container.recalculate_ratios { c with children := c.children ++ [node] }

/-- `Container::insert_child`. -/
def Container.insert_child (c : Container) (index : Nat) (node : LayoutNode) :
    Container :=
  let index := min index c.children.length
  Container.recalculate_ratios
    { c with children := c.children.take index ++ node :: c.children.drop index }

/-- `Container::resize_child`.  `none` models a panic: either the
`ratios[..]` index being out of bounds, or `f64::clamp` with inverted
bounds. -/
def Container.resize_child (c : Container) (index : Nat) (delta : ℚ) :
    Option Container :=
  if c.children.length < 2 ∨ index ≥ c.children.length - 1 then
    some c
  else if index + 1 < c.ratios.length then
    let minRat : ℚ := 5 / 100
    let r0 := c.ratios.getD index 0
    let r1 := c.ratios.getD (index + 1) 0
    let maxDelta := min (r1 - minRat) (1 - minRat - r0)
    let minDelta := -(r0 - minRat)
    match clampQ delta minDelta maxDelta with
    | none => none
    | some d =>
        some { c with ratios := (c.ratios.set index (r0 + d)).set (index + 1) (r1 - d) }
  else
    none

/-- `Container::remove_child`. -/
def Container.remove_child (c : Container) (index : Nat) : Container :=
  if index < c.children.length then
    let c := Container.recalculate_ratios
      { c with children := c.children.take index ++ c.children.drop (index + 1) }
    if c.focused_child ≥ c.children.length ∧ ¬ c.children.isEmpty then
      { c with focused_child := c.children.length - 1 }
    else c
  else c

/-- `Container::remove_node` (returns whether the node was found). -/
def Container.remove_node (c : Container) (node : LayoutNode) :
    Container × Bool :=
  match c.children.findIdx? (fun n => n = node) with
  | some pos => (c.remove_child pos, true)
  | none => (c, false)

/-- `Container::is_empty`. -/
def Container.isEmptyC (c : Container) : Bool := c.children.isEmpty

-- Association-list maps standing in for HashMap / IndexMap: insertion
-- replaces in place, so iteration order is insertion order.

/-- Map insert: replace the existing binding in place, else append. -/
def assocInsert {α : Type} (l : List (Nat × α)) (k : Nat) (v : α) :
    List (Nat × α) :=
  match l with
  | [] => [(k, v)]
  | (k', v') :: rest =>
      if k' = k then (k, v) :: rest else (k', v') :: assocInsert rest k v

/-- Map lookup. -/
def assocGet {α : Type} (l : List (Nat × α)) (k : Nat) : Option α :=
  match l with
  | [] => none
  | (k', v) :: rest => if k' = k then some v else assocGet rest k

/-- Map remove. -/
def assocRemove {α : Type} (l : List (Nat × α)) (k : Nat) :
    List (Nat × α) :=
  l.filter (fun p => p.1 ≠ k)

/-- Update the value bound to `k` in place (no-op when absent). -/
def assocUpdate {α : Type} (l : List (Nat × α)) (k : Nat) (f : α → α) :
    List (Nat × α) :=
  l.map (fun p => if p.1 = k then (p.1, f p.2) else p)

/-- `LayoutTree` (layout.rs). -/
structure LayoutTree where
  containers : List (ContainerId × Container)
  root : Option ContainerId
  focused_container : Option ContainerId
  default_direction : SplitDirection
  window_geometries : List (WindowId × Geometry)
deriving Repr, DecidableEq

/-- `LayoutTree::new`. -/
def LayoutTree.new : LayoutTree :=
  ⟨[], none, none, .horizontal, []⟩

/-- `LayoutTree::add_window`.  The Rust global `NEXT_CONTAINER_ID`
atomic is modelled by threading `counter`: `Container::new` consumes
the current value and bumps it (only the root-creation branch creates
a container). -/
def LayoutTree.add_window (t : LayoutTree) (window_id : WindowId)
    (gaps_inner : Nat) (counter : Nat) : LayoutTree × Nat :=
  let node := LayoutNode.window window_id
  match t.root with
  | none =>
      let root := Container.new counter .split t.default_direction
      let root := { root with gap := gaps_inner }
      let root := root.add_child node
      ({ t with
        containers := assocInsert t.containers counter root
        root := some counter
        focused_container := some counter }, counter + 1)
  | some rootId =>
      let targetId := t.focused_container.getD rootId
      match assocGet t.containers targetId with
      | none => (t, counter)
      | some container =>
          let insertPos := container.focused_child + 1
          let container := container.insert_child insertPos node
          let container := { container with focused_child := insertPos }
          ({ t with
            containers := assocInsert t.containers targetId container }, counter)

/-- `LayoutTree::remove_empty_container`. -/
def LayoutTree.remove_empty_container (t : LayoutTree)
    (container_id : ContainerId) : LayoutTree :=
  match assocGet t.containers container_id with
  | none => t
  | some container =>
      let t := { t with containers := assocRemove t.containers container_id }
      if t.root = some container_id then
        { t with root := none, focused_container := none }
      else
        match container.parent with
        | none => t
        | some parentId =>
            { t with
              containers := assocUpdate t.containers parentId
                (fun p => (p.remove_node (.container container_id)).1) }

/-- The `for` loop of `LayoutTree::remove_window`: find the first
container holding the node, remove it there, report the container if
it became empty. -/
def removeWindowGo (cs : List (ContainerId × Container)) (node : LayoutNode) :
    List (ContainerId × Container) × Option ContainerId :=
  match cs with
  | [] => ([], none)
  | (cid, c) :: rest =>
      let (c', found) := c.remove_node node
      if found then
        ((cid, c') :: rest, if c'.isEmptyC then some cid else none)
      else
        let (rest', e) := removeWindowGo rest node
        ((cid, c) :: rest', e)

/-- `LayoutTree::remove_window`. -/
def LayoutTree.remove_window (t : LayoutTree) (window_id : WindowId) :
    LayoutTree :=
  let node := LayoutNode.window window_id
  let (cs, emptied) := removeWindowGo t.containers node
  let t := { t with containers := cs }
  let t := match emptied with
    | some emptyId => t.remove_empty_container emptyId
    | none => t
  { t with window_geometries := assocRemove t.window_geometries window_id }

-- Recursive geometry assignment (`calculate_layout` / `layout_container`
-- / `layout_split` / `layout_tabbed` / `layout_child`).  The Rust
-- recursion terminates because the container graph reached from the
-- root is a finite tree; the embedding makes this explicit with a fuel
-- argument, instantiated below with more fuel than any acyclic tree
-- can consume.  Because a sibling's offset in `layout_split` depends
-- only on the widths computed *before* any recursive descent, the
-- split loop is embedded as a pure rectangle computation
-- (`splitRectsH`/`splitRectsV`) followed by a fold that recurses into
-- each (child, rectangle) pair in order.

/-- The per-child rectangles of the horizontal `layout_split` loop:
`ratios` is the unprocessed suffix, `defr` the `1.0 / n` fallback
ratio, `avail` the gap-reduced width, `x` the running offset.  The
singleton case is the `i == n - 1` branch, which takes everything up
to the right edge of `geometry`. -/
def splitRectsH : List LayoutNode → List ℚ → ℚ → Nat → Nat → Int →
    Geometry → List Geometry
  | [], _, _, _, _, _, _ => []
  | [_], _, _, _, _, x, geometry =>
      [Geometry.new x geometry.y
        (intToU32 (geometry.x + (geometry.width : Int) - x)) geometry.height]
  | _ :: c2 :: rest, ratios, defr, gap, avail, x, geometry =>
      let r := ratios.headD defr
      let width := floorNatQ ((avail : ℚ) * r)
      Geometry.new x geometry.y width geometry.height ::
        splitRectsH (c2 :: rest) ratios.tail defr gap avail
          (x + (width : Int) + (gap : Int)) geometry

/-- The per-child rectangles of the vertical `layout_split` loop. -/
def splitRectsV : List LayoutNode → List ℚ → ℚ → Nat → Nat → Int →
    Geometry → List Geometry
  | [], _, _, _, _, _, _ => []
  | [_], _, _, _, _, y, geometry =>
      [Geometry.new geometry.x y geometry.width
        (intToU32 (geometry.y + (geometry.height : Int) - y))]
  | _ :: c2 :: rest, ratios, defr, gap, avail, y, geometry =>
      let r := ratios.headD defr
      let height := floorNatQ ((avail : ℚ) * r)
      Geometry.new geometry.x y geometry.width height ::
        splitRectsV (c2 :: rest) ratios.tail defr gap avail
          (y + (height : Int) + (gap : Int)) geometry

/-- `layout_split`, as the ordered list of (child, rectangle) tasks. -/
def splitTasks (c : Container) (geometry : Geometry) :
    List (LayoutNode × Geometry) :=
  let n := c.children.length
  let totalGap := c.gap * (n - 1)
  match c.split_direction with
  | .horizontal =>
      c.children.zip (splitRectsH c.children c.ratios (1 / (n : ℚ)) c.gap
        (geometry.width - totalGap) geometry.x geometry)
  | .vertical =>
      c.children.zip (splitRectsV c.children c.ratios (1 / (n : ℚ)) c.gap
        (geometry.height - totalGap) geometry.y geometry)

/-- The content rectangle of `layout_tabbed` (24 px header per tab,
`24 * children.len()` for stacked). -/
def tabbedContentGeo (c : Container) (geometry : Geometry) : Geometry :=
  let tabHeight : Nat := 24
  match c.layout with
  | .tabbed =>
      Geometry.new geometry.x (geometry.y + (tabHeight : Int)) geometry.width
        (geometry.height - tabHeight)
  | .stacked =>
      let headerHeight := tabHeight * c.children.length
      Geometry.new geometry.x (geometry.y + (headerHeight : Int)) geometry.width
        (geometry.height - headerHeight)
  | .split => geometry

/-- Write a container's cached geometry. -/
def setContainerGeo (cs : List (ContainerId × Container)) (cid : ContainerId)
    (g : Geometry) : List (ContainerId × Container) :=
  assocUpdate cs cid (fun c => { c with geometry := g })

/-- Write a container's cached geometry inside the tree. -/
def setTreeGeo (t : LayoutTree) (cid : ContainerId) (g : Geometry) :
    LayoutTree :=
  { t with containers := setContainerGeo t.containers cid g }

/-- The body of `layout_container` after the geometry cache write:
split mode walks the `splitTasks`, tabbed/stacked mode lays out only
the child at `focused_child` (the others get no geometry entry).
`recur` is the recursive descent into a child. -/
def layoutContainerBody (recur : LayoutTree → LayoutNode → Geometry → LayoutTree)
    (t : LayoutTree) (c : Container) (geometry : Geometry) : LayoutTree :=
  if c.children.isEmpty then t
  else match c.layout with
    | .split =>
        (splitTasks c geometry).foldl (fun t' p => recur t' p.1 p.2) t
    | .tabbed =>
        match c.children.get? c.focused_child with
        | some child => recur t child (tabbedContentGeo c geometry)
        | none => t
    | .stacked =>
        match c.children.get? c.focused_child with
        | some child => recur t child (tabbedContentGeo c geometry)
        | none => t

/-- `layout_container`: look the container up, cache its geometry, then
dispatch on the layout mode. -/
def layoutContainerGo
    (recur : LayoutTree → LayoutNode → Geometry → LayoutTree)
    (t : LayoutTree) (cid : ContainerId) (geometry : Geometry) : LayoutTree :=
  match assocGet t.containers cid with
  | none => t
  | some c => layoutContainerBody recur (setTreeGeo t cid geometry) c geometry

/-- `layout_child` fused with `layout_container`: a window child
records its geometry; a container child descends with one unit of fuel
consumed per nesting level. -/
def layoutNode : Nat → LayoutTree → LayoutNode → Geometry → LayoutTree
  | _, t, .window wid, geometry =>
      { t with window_geometries := assocInsert t.window_geometries wid geometry }
  | 0, t, .container _, _ => t
  | fuel + 1, t, .container cid, geometry =>
      layoutContainerGo (layoutNode fuel) t cid geometry

/-- `LayoutTree::calculate_layout`.  The fuel exceeds the number of
containers, hence the depth of any acyclic container tree. -/
def LayoutTree.calculate_layout (t : LayoutTree) (available : Geometry)
    (outer_gap : Nat) : LayoutTree :=
  match t.root with
  | none => { t with window_geometries := [] }
  | some rootId =>
      let inner := Geometry.new (available.x + (outer_gap : Int))
        (available.y + (outer_gap : Int))
        (available.width - outer_gap * 2)
        (available.height - outer_gap * 2)
      layoutNode (t.containers.length + 1)
        { t with window_geometries := [] } (.container rootId) inner

-- ── C6: resize_child ─────────────────────────────────────────────

/-- The split container that 21 successive `add_child (window i)`
calls produce (see `container21_reachable`): `recalculate_ratios`
leaves every ratio at `1/21`, which is below the `0.05` floor. -/
def container21 : Container :=
  { id := 1, parent := none, children := (List.range 21).map .window,
    layout := .split, split_direction := .horizontal,
    ratios := List.replicate 21 (1 / (21 : ℚ)), focused_child := 0,
    geometry := default, gap := 4 }

set_option maxRecDepth 8000 in
/-- `container21` is reachable: it is literally the result of adding 21
windows to a fresh split container. -/
theorem container21_reachable :
    (List.range 21).foldl (fun c i => c.add_child (.window i))
      (Container.new 1 .split .horizontal) = container21 := rfl

/-- C6 counterexample: on a container whose adjacent ratios sum below
`0.1` (here the equal-ratio 21-child container, ratio `1/21 < 0.05`
each), `resize_child` does not clamp-and-adjust: the internal
`f64::clamp` is called with inverted bounds and the code panics
(modelled as `none`), so no ratio adjustment of any kind happens. -/
theorem resize_child_panics_below_floor :
    container21.resize_child 0 0 = none ∧
      container21.ratios.getD 0 0 + container21.ratios.getD 1 0 < 1 / 10 := by
  constructor
  · norm_num [Container.resize_child, container21, clampQ, min_def]
  · norm_num [container21]

/-- C6 (amended): whenever the two affected ratios sum to at least
`0.1` (in particular whenever both respect the 5% floor, e.g. any
2-child container with ratios summing to 1), `resize_child index delta`
succeeds and adjusts `ratios[index]` and `ratios[index+1]` by equal and
opposite amounts `±d`, where `d` is `delta` clamped so that neither
adjusted ratio drops below the `0.05` floor; an in-range `delta` is
applied unchanged. -/
theorem resize_child_spec (c : Container) (index : Nat) (delta : ℚ)
    (h2 : 2 ≤ c.children.length) (hi : index < c.children.length - 1)
    (hlen : index + 1 < c.ratios.length)
    (hsum : (1 : ℚ) / 10 ≤ c.ratios.getD index 0 + c.ratios.getD (index + 1) 0) :
    ∃ d : ℚ, c.resize_child index delta =
        some { c with ratios := ((c.ratios.set index (c.ratios.getD index 0 + d)).set (index + 1) (c.ratios.getD (index + 1) 0 - d)) } ∧
      5 / 100 ≤ c.ratios.getD index 0 + d ∧
      5 / 100 ≤ c.ratios.getD (index + 1) 0 - d ∧
      (-(c.ratios.getD index 0 - 5 / 100) ≤ delta ∧
        delta ≤ min (c.ratios.getD (index + 1) 0 - 5 / 100)
          (1 - 5 / 100 - c.ratios.getD index 0) → d = delta) := by
  set r0 := c.ratios.getD index 0 with hr0
  set r1 := c.ratios.getD (index + 1) 0 with hr1
  have hguard : ¬ (c.children.length < 2 ∨ index ≥ c.children.length - 1) := by
    push_neg
    exact ⟨h2, hi⟩
  have hlohi : -(r0 - 5 / 100) ≤ min (r1 - 5 / 100) (1 - 5 / 100 - r0) := by
    apply le_min <;> linarith
  refine ⟨if delta < -(r0 - 5 / 100) then -(r0 - 5 / 100)
    else if delta > min (r1 - 5 / 100) (1 - 5 / 100 - r0) then
      min (r1 - 5 / 100) (1 - 5 / 100 - r0) else delta, ?_, ?_, ?_, ?_⟩
  · simp only [Container.resize_child, hguard, if_false, hlen, if_true, clampQ,
      ← hr0, ← hr1, if_pos hlohi]
  · split
    · linarith
    · split
      · linarith [min_le_left (r1 - 5 / 100) (1 - 5 / 100 - r0),
          min_le_right (r1 - 5 / 100) (1 - 5 / 100 - r0)]
      · linarith [not_lt.mp (by assumption : ¬ delta < -(r0 - 5 / 100))]
  · split
    · linarith [min_le_left (r1 - 5 / 100) (1 - 5 / 100 - r0)]
    · split
      · linarith [min_le_left (r1 - 5 / 100) (1 - 5 / 100 - r0)]
      · have := not_lt.mp (by assumption :
          ¬ delta > min (r1 - 5 / 100) (1 - 5 / 100 - r0))
        linarith [min_le_left (r1 - 5 / 100) (1 - 5 / 100 - r0)]
  · rintro ⟨hl, hh⟩
    rw [if_neg (by linarith), if_neg (by simpa using hh)]

/-- A 2-child split container with equal ratios `[1/2, 1/2]`. -/
def container2 : Container :=
  ((Container.new 1 .split .horizontal).add_child (.window 1)).add_child
    (.window 2)

/-- C6 witness: resizing `container2` by an overshooting `delta = 2`. -/
theorem resize_child_spec_witness :
    ∃ d : ℚ, container2.resize_child 0 2 =
        some { container2 with ratios := ((container2.ratios.set 0 (container2.ratios.getD 0 0 + d)).set 1 (container2.ratios.getD 1 0 - d)) } ∧
      5 / 100 ≤ container2.ratios.getD 0 0 + d ∧
      5 / 100 ≤ container2.ratios.getD 1 0 - d ∧
      (-(container2.ratios.getD 0 0 - 5 / 100) ≤ 2 ∧
        (2 : ℚ) ≤ min (container2.ratios.getD 1 0 - 5 / 100)
          (1 - 5 / 100 - container2.ratios.getD 0 0) → d = 2) :=
  resize_child_spec container2 0 2
    (by norm_num [container2, Container.add_child, Container.recalculate_ratios,
      Container.new])
    (by norm_num [container2, Container.add_child, Container.recalculate_ratios,
      Container.new])
    (by norm_num [container2, Container.add_child, Container.recalculate_ratios,
      Container.new])
    (by norm_num [container2, Container.add_child, Container.recalculate_ratios,
      Container.new])

-- ── C7: calculate_layout idempotence ─────────────────────────────

/-- Forget a container's cached geometry (the only container field the
layout pass writes). -/
def stripGeo (c : Container) : Container := { c with geometry := default }

/-- Forget all cached geometries in a container map. -/
def stripCs (cs : List (ContainerId × Container)) :
    List (ContainerId × Container) :=
  cs.map (fun p => (p.1, stripGeo p.2))

theorem stripCs_length (cs : List (ContainerId × Container)) :
    (stripCs cs).length = cs.length := by
  simp [stripCs]

theorem stripCs_setContainerGeo (cs : List (ContainerId × Container))
    (cid : ContainerId) (g : Geometry) :
    stripCs (setContainerGeo cs cid g) = stripCs cs := by
  simp only [setContainerGeo, assocUpdate, stripCs, List.map_map]
  apply List.map_congr_left
  intro p _
  by_cases h : p.1 = cid <;> simp [h, Function.comp, stripGeo]

theorem assocGet_stripCs (cs : List (ContainerId × Container))
    (k : ContainerId) :
    assocGet (stripCs cs) k = (assocGet cs k).map stripGeo := by
  induction cs with
  | nil => rfl
  | cons p rest ih =>
      simp only [stripCs, List.map_cons, assocGet]
      by_cases h : p.1 = k
      · simp [h]
      · simp only [h, if_false]
        exact ih

/-- The layout pass only rewrites cached container geometries and the
window-geometry cache: container shapes and the root are untouched. -/
def shapePreserved (t t' : LayoutTree) : Prop :=
  stripCs t'.containers = stripCs t.containers ∧ t'.root = t.root

theorem shapePreserved_refl (t : LayoutTree) : shapePreserved t t := ⟨rfl, rfl⟩

theorem shapePreserved_trans {a b c : LayoutTree} (h1 : shapePreserved a b)
    (h2 : shapePreserved b c) : shapePreserved a c :=
  ⟨h2.1.trans h1.1, h2.2.trans h1.2⟩

theorem foldl_shape (f : LayoutTree → LayoutNode → Geometry → LayoutTree)
    (hf : ∀ t node g, shapePreserved t (f t node g)) :
    ∀ (l : List (LayoutNode × Geometry)) (t : LayoutTree),
      shapePreserved t (l.foldl (fun t' p => f t' p.1 p.2) t) := by
  intro l
  induction l with
  | nil => intro t; exact shapePreserved_refl t
  | cons p rest ih =>
      intro t
      exact shapePreserved_trans (hf t p.1 p.2) (ih _)

theorem setTreeGeo_shape (t : LayoutTree) (cid : ContainerId) (g : Geometry) :
    shapePreserved t (setTreeGeo t cid g) :=
  ⟨stripCs_setContainerGeo _ _ _, rfl⟩

theorem layoutContainerBody_shape
    (recur : LayoutTree → LayoutNode → Geometry → LayoutTree)
    (hrec : ∀ t node g, shapePreserved t (recur t node g))
    (t : LayoutTree) (c : Container) (geometry : Geometry) :
    shapePreserved t (layoutContainerBody recur t c geometry) := by
  unfold layoutContainerBody
  split
  · exact shapePreserved_refl t
  · split
    · exact foldl_shape recur hrec _ t
    · split
      · exact hrec _ _ _
      · exact shapePreserved_refl t
    · split
      · exact hrec _ _ _
      · exact shapePreserved_refl t

theorem layoutContainerGo_shape
    (recur : LayoutTree → LayoutNode → Geometry → LayoutTree)
    (hrec : ∀ t node g, shapePreserved t (recur t node g))
    (t : LayoutTree) (cid : ContainerId) (geometry : Geometry) :
    shapePreserved t (layoutContainerGo recur t cid geometry) := by
  unfold layoutContainerGo
  split
  · exact shapePreserved_refl t
  · exact shapePreserved_trans (setTreeGeo_shape t cid geometry)
      (layoutContainerBody_shape recur hrec _ _ _)

theorem layoutNode_shape (fuel : Nat) :
    ∀ t node g, shapePreserved t (layoutNode fuel t node g) := by
  induction fuel with
  | zero =>
      intro t node g
      cases node with
      | window wid => exact ⟨rfl, rfl⟩
      | container cid => exact shapePreserved_refl t
  | succ fuel ih =>
      intro t node g
      cases node with
      | window wid => exact ⟨rfl, rfl⟩
      | container cid => exact layoutContainerGo_shape _ ih t cid g

/-- Two trees that agree on container shapes and on the geometry cache
are mapped by the layout pass to trees that still agree. -/
def layoutAgree (t t' : LayoutTree) : Prop :=
  stripCs t.containers = stripCs t'.containers ∧
    t.window_geometries = t'.window_geometries

theorem foldl_agree (f : LayoutTree → LayoutNode → Geometry → LayoutTree)
    (hf : ∀ t t' node g, layoutAgree t t' →
      layoutAgree (f t node g) (f t' node g)) :
    ∀ (l : List (LayoutNode × Geometry)) (t t' : LayoutTree),
      layoutAgree t t' →
      layoutAgree (l.foldl (fun t0 p => f t0 p.1 p.2) t)
        (l.foldl (fun t0 p => f t0 p.1 p.2) t') := by
  intro l
  induction l with
  | nil => intro t t' h; exact h
  | cons p rest ih =>
      intro t t' h
      exact ih _ _ (hf _ _ _ _ h)

theorem splitTasks_stripGeo (c : Container) (g : Geometry) :
    splitTasks (stripGeo c) g = splitTasks c g := rfl

theorem tabbedContentGeo_stripGeo (c : Container) (g : Geometry) :
    tabbedContentGeo (stripGeo c) g = tabbedContentGeo c g := rfl

theorem layoutContainerBody_agree
    (recur : LayoutTree → LayoutNode → Geometry → LayoutTree)
    (hrec : ∀ t t' node g, layoutAgree t t' →
      layoutAgree (recur t node g) (recur t' node g))
    (t t' : LayoutTree) (c c' : Container) (geometry : Geometry)
    (h : layoutAgree t t') (hstrip : stripGeo c = stripGeo c') :
    layoutAgree (layoutContainerBody recur t c geometry)
      (layoutContainerBody recur t' c' geometry) := by
  have hch0 := congrArg Container.children hstrip
  have hlay0 := congrArg Container.layout hstrip
  have hfoc0 := congrArg Container.focused_child hstrip
  have hch : c.children = c'.children := hch0
  have hlay : c.layout = c'.layout := hlay0
  have hfoc : c.focused_child = c'.focused_child := hfoc0
  have htasks : splitTasks c geometry = splitTasks c' geometry := by
    rw [← splitTasks_stripGeo c geometry, ← splitTasks_stripGeo c' geometry,
      hstrip]
  have hcont : tabbedContentGeo c geometry = tabbedContentGeo c' geometry := by
    rw [← tabbedContentGeo_stripGeo c geometry,
      ← tabbedContentGeo_stripGeo c' geometry, hstrip]
  unfold layoutContainerBody
  rw [← hch, ← hlay, ← hfoc, ← htasks, ← hcont]
  split
  · exact h
  · split
    · exact foldl_agree recur hrec _ _ _ h
    · split
      · exact hrec _ _ _ _ h
      · exact h
    · split
      · exact hrec _ _ _ _ h
      · exact h

theorem setTreeGeo_agree (t t' : LayoutTree) (cid : ContainerId)
    (g : Geometry) (h : layoutAgree t t') :
    layoutAgree (setTreeGeo t cid g) (setTreeGeo t' cid g) := by
  refine ⟨?_, h.2⟩
  show stripCs (setContainerGeo t.containers cid g) =
    stripCs (setContainerGeo t'.containers cid g)
  rw [stripCs_setContainerGeo, stripCs_setContainerGeo]
  exact h.1

theorem layoutContainerGo_agree
    (recur : LayoutTree → LayoutNode → Geometry → LayoutTree)
    (hrec : ∀ t t' node g, layoutAgree t t' →
      layoutAgree (recur t node g) (recur t' node g))
    (t t' : LayoutTree) (cid : ContainerId) (geometry : Geometry)
    (h : layoutAgree t t') :
    layoutAgree (layoutContainerGo recur t cid geometry)
      (layoutContainerGo recur t' cid geometry) := by
  unfold layoutContainerGo
  have hlook : (assocGet t.containers cid).map stripGeo =
      (assocGet t'.containers cid).map stripGeo := by
    rw [← assocGet_stripCs, ← assocGet_stripCs, h.1]
  cases hget : assocGet t.containers cid with
  | none =>
      cases hget' : assocGet t'.containers cid with
      | none => exact h
      | some c' => rw [hget, hget'] at hlook; simp at hlook
  | some c =>
      cases hget' : assocGet t'.containers cid with
      | none => rw [hget, hget'] at hlook; simp at hlook
      | some c' =>
          rw [hget, hget'] at hlook
          simp only [Option.map_some'] at hlook
          exact layoutContainerBody_agree recur hrec _ _ _ _ _
            (setTreeGeo_agree t t' cid geometry h) (Option.some.inj hlook)

theorem layoutNode_agree (fuel : Nat) :
    ∀ t t' node g, layoutAgree t t' →
      layoutAgree (layoutNode fuel t node g) (layoutNode fuel t' node g) := by
  induction fuel with
  | zero =>
      intro t t' node g h
      cases node with
      | window wid =>
          exact ⟨h.1, by
            show assocInsert t.window_geometries wid g =
              assocInsert t'.window_geometries wid g
            rw [h.2]⟩
      | container cid => exact h
  | succ fuel ih =>
      intro t t' node g h
      cases node with
      | window wid =>
          exact ⟨h.1, by
            show assocInsert t.window_geometries wid g =
              assocInsert t'.window_geometries wid g
            rw [h.2]⟩
      | container cid => exact layoutContainerGo_agree _ ih t t' cid g h

theorem calculate_layout_shape (t : LayoutTree) (available : Geometry)
    (outer_gap : Nat) :
    shapePreserved t (t.calculate_layout available outer_gap) := by
  unfold LayoutTree.calculate_layout
  cases hroot : t.root with
  | none => exact ⟨rfl, hroot.symm⟩
  | some rootId =>
      exact shapePreserved_trans
        (⟨rfl, hroot.symm⟩ : shapePreserved t
          ⟨t.containers, some rootId, t.focused_container,
            t.default_direction, []⟩)
        (layoutNode_shape _ _ _ _)

theorem calculate_layout_agree (t t' : LayoutTree) (available : Geometry)
    (outer_gap : Nat) (hcs : stripCs t.containers = stripCs t'.containers)
    (hr : t.root = t'.root) :
    (t.calculate_layout available outer_gap).window_geometries =
      (t'.calculate_layout available outer_gap).window_geometries := by
  unfold LayoutTree.calculate_layout
  rw [hr]
  cases hroot' : t'.root with
  | none => rfl
  | some rootId =>
      have hlen : t.containers.length = t'.containers.length := by
        rw [← stripCs_length t.containers, ← stripCs_length t'.containers, hcs]
      rw [hlen]
      exact (layoutNode_agree (t'.containers.length + 1)
        ⟨t.containers, some rootId, t.focused_container,
          t.default_direction, []⟩
        ⟨t'.containers, some rootId, t'.focused_container,
          t'.default_direction, []⟩ (.container rootId) _
        ⟨hcs, rfl⟩).2

/-- C7: for every layout-tree state, area and outer gap, running
`calculate_layout` twice in succession yields, after the second call,
exactly the window-geometry map the first call produced. -/
theorem calculate_layout_idempotent (t : LayoutTree) (available : Geometry)
    (outer_gap : Nat) :
    ((t.calculate_layout available outer_gap).calculate_layout available
        outer_gap).window_geometries =
      (t.calculate_layout available outer_gap).window_geometries :=
  calculate_layout_agree (t.calculate_layout available outer_gap) t available
    outer_gap (calculate_layout_shape t available outer_gap).1
    (calculate_layout_shape t available outer_gap).2

-- ── C1: exact split-mode tiling ──────────────────────────────────

theorem floorNatQ_nonneg_le {q : ℚ} (hq : 0 ≤ q) : (floorNatQ q : ℚ) ≤ q := by
  unfold floorNatQ
  have h0 : (0 : Int) ≤ ⌊q⌋ := Int.floor_nonneg.mpr hq
  have : ((⌊q⌋.toNat : Int) : ℚ) ≤ q := by
    rw [Int.toNat_of_nonneg h0]
    exact_mod_cast Int.floor_le q
  exact_mod_cast this

theorem intToU32_ofNat {B : Nat} (h : B < 4294967296) :
    intToU32 (B : Int) = B := by
  unfold intToU32
  have h1 : (B : Int) % 4294967296 = (B : Int) := by
    apply Int.emod_eq_of_lt (by positivity)
    exact_mod_cast h
  rw [h1, Int.toNat_natCast]

/-- Full description of the horizontal split loop, by induction over
the children, with `B` the width budget still to distribute:
the produced rectangles are one per child, span the full height, start
at `x`, width `⌊avail * ratio⌋` for every child but the last, chain
with exactly `gap` between consecutive rectangles, distribute exactly
`B`, and the last rectangle ends exactly at the parent's right edge. -/
theorem splitRectsH_spec :
    ∀ (children : List LayoutNode) (rs : List ℚ) (defr : ℚ)
      (gap avail B : Nat) (x : Int) (g : Geometry),
      children ≠ [] →
      rs.length = children.length →
      (∀ r ∈ rs, 0 ≤ r) →
      (avail : ℚ) * rs.sum ≤ (B : ℚ) →
      g.x + (g.width : Int) - x = ((B + gap * (children.length - 1) : Nat) : Int) →
      B ≤ g.width → g.width < 4294967296 →
      (splitRectsH children rs defr gap avail x g).length = children.length ∧
      (∀ r ∈ splitRectsH children rs defr gap avail x g,
        r.y = g.y ∧ r.height = g.height) ∧
      ((splitRectsH children rs defr gap avail x g).head?.map Geometry.x =
        some x) ∧
      (∀ i, i + 1 < children.length →
        ((splitRectsH children rs defr gap avail x g).get? i).map
          Geometry.width = some (floorNatQ ((avail : ℚ) * rs.getD i 0))) ∧
      (∀ i a b, (splitRectsH children rs defr gap avail x g).get? i = some a →
        (splitRectsH children rs defr gap avail x g).get? (i + 1) = some b →
        b.x = a.x + (a.width : Int) + (gap : Int)) ∧
      ((splitRectsH children rs defr gap avail x g).map Geometry.width).sum =
        B ∧
      (∀ h : splitRectsH children rs defr gap avail x g ≠ [],
        ((splitRectsH children rs defr gap avail x g).getLast h).x +
          (((splitRectsH children rs defr gap avail x g).getLast h).width : Int) =
          g.x + (g.width : Int)) := by
  intro children
  induction children with
  | nil => intro rs defr gap avail B x g hne; exact absurd rfl hne
  | cons child rest ih =>
      intro rs defr gap avail B x g _ hlen hpos hbud hx hBw hw
      cases rest with
      | nil =>
          -- the `i == n - 1` branch: one child takes the whole budget
          have hxB : g.x + (g.width : Int) - x = (B : Int) := by
            simpa using hx
          have hB32 : B < 4294967296 := lt_of_le_of_lt hBw hw
          have hwval : intToU32 (g.x + (g.width : Int) - x) = B := by
            rw [hxB]; exact intToU32_ofNat hB32
          refine ⟨rfl, ?_, rfl, ?_, ?_, ?_, ?_⟩
          · intro r hr
            simp only [splitRectsH, List.mem_singleton] at hr
            subst hr
            exact ⟨rfl, rfl⟩
          · intro i hi; simp at hi
          · intro i a b ha hb
            simp only [splitRectsH] at hb
            rcases i with _ | j <;> simp at hb
          · show intToU32 (g.x + (g.width : Int) - x) + 0 = B
            rw [hwval]
            omega
          · intro h
            show x + (intToU32 (g.x + (g.width : Int) - x) : Int) =
              g.x + (g.width : Int)
            rw [hwval]
            omega
      | cons c2 rest2 =>
          -- the floor branch followed by the rest of the loop
          cases rs with
          | nil => simp at hlen
          | cons r rs' =>
              have hlen' : rs'.length = (c2 :: rest2).length := by
                simpa using hlen
              have hr0 : 0 ≤ r := hpos r (List.mem_cons_self r rs')
              have hpos' : ∀ q ∈ rs', 0 ≤ q :=
                fun q hq => hpos q (List.mem_cons_of_mem r hq)
              have hsum' : 0 ≤ rs'.sum := List.sum_nonneg hpos'
              have havail0 : (0 : ℚ) ≤ (avail : ℚ) := by positivity
              set w := floorNatQ ((avail : ℚ) * r) with hwdef
              have hwq : (w : ℚ) ≤ (avail : ℚ) * r :=
                floorNatQ_nonneg_le (mul_nonneg havail0 hr0)
              have hsplit : (avail : ℚ) * (r :: rs').sum =
                  (avail : ℚ) * r + (avail : ℚ) * rs'.sum := by
                rw [List.sum_cons, mul_add]
              have harB : (avail : ℚ) * r ≤ (B : ℚ) := by
                have : 0 ≤ (avail : ℚ) * rs'.sum := mul_nonneg havail0 hsum'
                rw [hsplit] at hbud
                linarith
              have hwB : w ≤ B := by
                have : (w : ℚ) ≤ (B : ℚ) := le_trans hwq harB
                exact_mod_cast this
              have hbud' : (avail : ℚ) * rs'.sum ≤ ((B - w : Nat) : ℚ) := by
                have hcast : ((B - w : Nat) : ℚ) = (B : ℚ) - (w : ℚ) := by
                  push_cast [Nat.cast_sub hwB]
                  ring
                rw [hcast]
                rw [hsplit] at hbud
                linarith
              have hx' : g.x + (g.width : Int) - (x + (w : Int) + (gap : Int)) =
                  (((B - w) + gap * ((c2 :: rest2).length - 1) : Nat) : Int) := by
                have hmul : gap * ((child :: c2 :: rest2).length - 1) =
                    gap * ((c2 :: rest2).length - 1) + gap := by
                  simp only [List.length_cons, Nat.add_sub_cancel]
                  ring
                rw [hmul] at hx
                omega
              have hBw' : B - w ≤ g.width := le_trans (Nat.sub_le B w) hBw
              obtain ⟨ihlen, ihyh, ihhead, ihwidths, ihchain, ihsum, ihlast⟩ :=
                ih rs' defr gap avail (B - w) (x + (w : Int) + (gap : Int)) g
                  (by simp) hlen' hpos' hbud' hx' hBw' hw
              have hrects : splitRectsH (child :: c2 :: rest2) (r :: rs') defr
                  gap avail x g = Geometry.new x g.y w g.height ::
                  splitRectsH (c2 :: rest2) rs' defr gap avail
                    (x + (w : Int) + (gap : Int)) g := rfl
              rw [hrects]
              refine ⟨?_, ?_, ?_, ?_, ?_, ?_, ?_⟩
              · simpa using ihlen
              · intro q hq
                rcases List.mem_cons.mp hq with hq | hq
                · subst hq; exact ⟨rfl, rfl⟩
                · exact ihyh q hq
              · rfl
              · intro i hi
                rcases i with _ | j
                · rfl
                · have hj : j + 1 < (c2 :: rest2).length := by
                    simpa using hi
                  have := ihwidths j hj
                  simpa using this
              · intro i a b ha hb
                rcases i with _ | j
                · -- the second rectangle starts after the first plus the gap
                  simp only [List.get?] at ha hb
                  have ha' : a = Geometry.new x g.y w g.height :=
                    (Option.some.inj ha).symm
                  have hbx : b.x = x + (w : Int) + (gap : Int) := by
                    rw [List.get?_zero] at hb
                    rw [hb] at ihhead
                    simpa using ihhead
                  rw [ha', hbx]
                  rfl
                · have := ihchain j a b (by simpa using ha) (by simpa using hb)
                  exact this
              · show w + (List.map Geometry.width (splitRectsH (c2 :: rest2)
                  rs' defr gap avail (x + (w : Int) + (gap : Int)) g)).sum = B
                rw [ihsum]
                omega
              · intro h
                have hne2 : splitRectsH (c2 :: rest2) rs' defr gap avail
                    (x + (w : Int) + (gap : Int)) g ≠ [] := by
                  intro hnil
                  rw [hnil] at ihlen
                  simp at ihlen
                rw [List.getLast_cons hne2]
                exact ihlast hne2

/-- Vertical counterpart of `splitRectsH_spec`. -/
theorem splitRectsV_spec :
    ∀ (children : List LayoutNode) (rs : List ℚ) (defr : ℚ)
      (gap avail B : Nat) (y : Int) (g : Geometry),
      children ≠ [] →
      rs.length = children.length →
      (∀ r ∈ rs, 0 ≤ r) →
      (avail : ℚ) * rs.sum ≤ (B : ℚ) →
      g.y + (g.height : Int) - y = ((B + gap * (children.length - 1) : Nat) : Int) →
      B ≤ g.height → g.height < 4294967296 →
      (splitRectsV children rs defr gap avail y g).length = children.length ∧
      (∀ r ∈ splitRectsV children rs defr gap avail y g,
        r.x = g.x ∧ r.width = g.width) ∧
      ((splitRectsV children rs defr gap avail y g).head?.map Geometry.y =
        some y) ∧
      (∀ i, i + 1 < children.length →
        ((splitRectsV children rs defr gap avail y g).get? i).map
          Geometry.height = some (floorNatQ ((avail : ℚ) * rs.getD i 0))) ∧
      (∀ i a b, (splitRectsV children rs defr gap avail y g).get? i = some a →
        (splitRectsV children rs defr gap avail y g).get? (i + 1) = some b →
        b.y = a.y + (a.height : Int) + (gap : Int)) ∧
      ((splitRectsV children rs defr gap avail y g).map Geometry.height).sum =
        B ∧
      (∀ h : splitRectsV children rs defr gap avail y g ≠ [],
        ((splitRectsV children rs defr gap avail y g).getLast h).y +
          (((splitRectsV children rs defr gap avail y g).getLast h).height : Int) =
          g.y + (g.height : Int)) := by
  intro children
  induction children with
  | nil => intro rs defr gap avail B y g hne; exact absurd rfl hne
  | cons child rest ih =>
      intro rs defr gap avail B y g _ hlen hpos hbud hy hBh hh
      cases rest with
      | nil =>
          have hyB : g.y + (g.height : Int) - y = (B : Int) := by
            simpa using hy
          have hB32 : B < 4294967296 := lt_of_le_of_lt hBh hh
          have hhval : intToU32 (g.y + (g.height : Int) - y) = B := by
            rw [hyB]; exact intToU32_ofNat hB32
          refine ⟨rfl, ?_, rfl, ?_, ?_, ?_, ?_⟩
          · intro r hr
            simp only [splitRectsV, List.mem_singleton] at hr
            subst hr
            exact ⟨rfl, rfl⟩
          · intro i hi; simp at hi
          · intro i a b ha hb
            simp only [splitRectsV] at hb
            rcases i with _ | j <;> simp at hb
          · show intToU32 (g.y + (g.height : Int) - y) + 0 = B
            rw [hhval]
            omega
          · intro h
            show y + (intToU32 (g.y + (g.height : Int) - y) : Int) =
              g.y + (g.height : Int)
            rw [hhval]
            omega
      | cons c2 rest2 =>
          cases rs with
          | nil => simp at hlen
          | cons r rs' =>
              have hlen' : rs'.length = (c2 :: rest2).length := by
                simpa using hlen
              have hr0 : 0 ≤ r := hpos r (List.mem_cons_self r rs')
              have hpos' : ∀ q ∈ rs', 0 ≤ q :=
                fun q hq => hpos q (List.mem_cons_of_mem r hq)
              have hsum' : 0 ≤ rs'.sum := List.sum_nonneg hpos'
              have havail0 : (0 : ℚ) ≤ (avail : ℚ) := by positivity
              set w := floorNatQ ((avail : ℚ) * r) with hwdef
              have hwq : (w : ℚ) ≤ (avail : ℚ) * r :=
                floorNatQ_nonneg_le (mul_nonneg havail0 hr0)
              have hsplit : (avail : ℚ) * (r :: rs').sum =
                  (avail : ℚ) * r + (avail : ℚ) * rs'.sum := by
                rw [List.sum_cons, mul_add]
              have harB : (avail : ℚ) * r ≤ (B : ℚ) := by
                have : 0 ≤ (avail : ℚ) * rs'.sum := mul_nonneg havail0 hsum'
                rw [hsplit] at hbud
                linarith
              have hwB : w ≤ B := by
                have : (w : ℚ) ≤ (B : ℚ) := le_trans hwq harB
                exact_mod_cast this
              have hbud' : (avail : ℚ) * rs'.sum ≤ ((B - w : Nat) : ℚ) := by
                have hcast : ((B - w : Nat) : ℚ) = (B : ℚ) - (w : ℚ) := by
                  push_cast [Nat.cast_sub hwB]
                  ring
                rw [hcast]
                rw [hsplit] at hbud
                linarith
              have hy' : g.y + (g.height : Int) - (y + (w : Int) + (gap : Int)) =
                  (((B - w) + gap * ((c2 :: rest2).length - 1) : Nat) : Int) := by
                have hmul : gap * ((child :: c2 :: rest2).length - 1) =
                    gap * ((c2 :: rest2).length - 1) + gap := by
                  simp only [List.length_cons, Nat.add_sub_cancel]
                  ring
                rw [hmul] at hy
                omega
              have hBh' : B - w ≤ g.height := le_trans (Nat.sub_le B w) hBh
              obtain ⟨ihlen, ihxw, ihhead, ihheights, ihchain, ihsum, ihlast⟩ :=
                ih rs' defr gap avail (B - w) (y + (w : Int) + (gap : Int)) g
                  (by simp) hlen' hpos' hbud' hy' hBh' hh
              have hrects : splitRectsV (child :: c2 :: rest2) (r :: rs') defr
                  gap avail y g = Geometry.new g.x y g.width w ::
                  splitRectsV (c2 :: rest2) rs' defr gap avail
                    (y + (w : Int) + (gap : Int)) g := rfl
              rw [hrects]
              refine ⟨?_, ?_, ?_, ?_, ?_, ?_, ?_⟩
              · simpa using ihlen
              · intro q hq
                rcases List.mem_cons.mp hq with hq | hq
                · subst hq; exact ⟨rfl, rfl⟩
                · exact ihxw q hq
              · rfl
              · intro i hi
                rcases i with _ | j
                · rfl
                · have hj : j + 1 < (c2 :: rest2).length := by
                    simpa using hi
                  have := ihheights j hj
                  simpa using this
              · intro i a b ha hb
                rcases i with _ | j
                · simp only [List.get?] at ha hb
                  have ha' : a = Geometry.new g.x y g.width w :=
                    (Option.some.inj ha).symm
                  have hby : b.y = y + (w : Int) + (gap : Int) := by
                    rw [List.get?_zero] at hb
                    rw [hb] at ihhead
                    simpa using ihhead
                  rw [ha', hby]
                  rfl
                · have := ihchain j a b (by simpa using ha) (by simpa using hb)
                  exact this
              · show w + (List.map Geometry.height (splitRectsV (c2 :: rest2)
                  rs' defr gap avail (y + (w : Int) + (gap : Int)) g)).sum = B
                rw [ihsum]
                omega
              · intro h
                have hne2 : splitRectsV (c2 :: rest2) rs' defr gap avail
                    (y + (w : Int) + (gap : Int)) g ≠ [] := by
                  intro hnil
                  rw [hnil] at ihlen
                  simp at ihlen
                rw [List.getLast_cons hne2]
                exact ihlast hne2

theorem layoutNode_window (fuel : Nat) (t : LayoutTree) (wid : WindowId)
    (g : Geometry) :
    layoutNode fuel t (.window wid) g =
      { t with window_geometries := assocInsert t.window_geometries wid g } := by
  cases fuel <;> rfl

theorem assocGet_assocInsert_self {α : Type} (l : List (Nat × α)) (k : Nat)
    (v : α) : assocGet (assocInsert l k v) k = some v := by
  induction l with
  | nil => simp [assocInsert, assocGet]
  | cons p rest ih =>
      simp only [assocInsert]
      by_cases h : p.1 = k <;> simp [assocGet, h, ih]

theorem assocGet_assocInsert_ne {α : Type} (l : List (Nat × α)) (k k' : Nat)
    (v : α) (h : k' ≠ k) :
    assocGet (assocInsert l k v) k' = assocGet l k' := by
  induction l with
  | nil =>
      show (if k = k' then some v else none) = none
      rw [if_neg (fun hk => h hk.symm)]
  | cons p rest ih =>
      have hkk : ¬ k = k' := fun hk => h hk.symm
      simp only [assocInsert]
      by_cases hp : p.1 = k
      · simp [assocGet, hp, hkk]
      · by_cases hp' : p.1 = k' <;> simp [assocGet, h, hkk, hp, hp', ih]

theorem foldl_windows_not_mem (fuel : Nat) :
    ∀ (ws : List WindowId) (rects : List Geometry) (t : LayoutTree)
      (wid : WindowId), wid ∉ ws →
      assocGet (((ws.map LayoutNode.window).zip rects).foldl
        (fun t' p => layoutNode fuel t' p.1 p.2) t).window_geometries wid =
      assocGet t.window_geometries wid := by
  intro ws
  induction ws with
  | nil => intro rects t wid _; rfl
  | cons w ws' ih =>
      intro rects t wid hmem
      cases rects with
      | nil => rfl
      | cons r rects' =>
          have hne : wid ≠ w := fun h => hmem (h ▸ List.mem_cons_self w ws')
          have hmem' : wid ∉ ws' := fun h => hmem (List.mem_cons_of_mem w h)
          show assocGet (((ws'.map LayoutNode.window).zip rects').foldl
            (fun t' p => layoutNode fuel t' p.1 p.2)
            (layoutNode fuel t (.window w) r)).window_geometries wid = _
          rw [ih rects' _ wid hmem', layoutNode_window]
          exact assocGet_assocInsert_ne _ _ _ _ hne

theorem foldl_windows_get (fuel : Nat) :
    ∀ (ws : List WindowId) (rects : List Geometry) (t : LayoutTree),
      ws.Nodup → ws.length = rects.length →
      ∀ i wid, ws.get? i = some wid →
        assocGet (((ws.map LayoutNode.window).zip rects).foldl
          (fun t' p => layoutNode fuel t' p.1 p.2) t).window_geometries wid =
        rects.get? i := by
  intro ws
  induction ws with
  | nil => intro rects t _ _ i wid h; cases h
  | cons w ws' ih =>
      intro rects t hnodup hlen i wid hget
      cases rects with
      | nil => simp at hlen
      | cons r rects' =>
          have hlen' : ws'.length = rects'.length := by simpa using hlen
          show assocGet (((ws'.map LayoutNode.window).zip rects').foldl
            (fun t' p => layoutNode fuel t' p.1 p.2)
            (layoutNode fuel t (.window w) r)).window_geometries wid = _
          rcases i with _ | j
          · have hwid : wid = w := by
              simp only [List.get?] at hget
              exact (Option.some.inj hget).symm
            have hw_not : w ∉ ws' := (List.nodup_cons.mp hnodup).1
            rw [hwid, foldl_windows_not_mem fuel ws' rects' _ w hw_not,
              layoutNode_window]
            show assocGet (assocInsert t.window_geometries w r) w = some r
            exact assocGet_assocInsert_self _ _ _
          · exact ih rects' _ (List.nodup_cons.mp hnodup).2 hlen' j wid
              (by simpa using hget)

/-- C1: a Split-mode container with `n ≥ 1` window children laid out
over a rectangle `g` by `layout_container`/`layout_split` (as invoked
from `calculate_layout`) tiles `g` exactly along the split axis: with
`avail = g.len − gap*(n−1)`, every child but the last gets width
`⌊avail * ratio_i⌋`, consecutive children are separated by exactly
`gap`, the widths sum to exactly `avail` (so children plus gaps cover
the rectangle's length with zero rounding drift), and the last child
ends exactly at the rectangle's far edge.  Stated for both split
directions; hypotheses are the container invariants (`ratios` parallel
to `children`, non-negative, summing to at most 1) plus the rectangle
being wide enough for the gaps and within `u32` range. -/
theorem layout_split_partitions (t : LayoutTree) (cid : ContainerId)
    (c : Container) (g : Geometry) (fuel : Nat) (ws : List WindowId)
    (hc : assocGet t.containers cid = some c)
    (hmode : c.layout = .split)
    (hch : c.children = ws.map .window) (hne : ws ≠ [])
    (hnodup : ws.Nodup)
    (hlen : c.ratios.length = c.children.length)
    (hpos : ∀ r ∈ c.ratios, 0 ≤ r) (hsum : c.ratios.sum ≤ 1) :
    (c.split_direction = .horizontal →
      c.gap * (c.children.length - 1) ≤ g.width → g.width < 4294967296 →
      ∃ rects : List Geometry,
        rects = splitRectsH c.children c.ratios (1 / (c.children.length : ℚ))
          c.gap (g.width - c.gap * (c.children.length - 1)) g.x g ∧
        rects.length = ws.length ∧
        (∀ i wid, ws.get? i = some wid →
          assocGet (layoutNode (fuel + 1) t (.container cid)
            g).window_geometries wid = rects.get? i) ∧
        (∀ r ∈ rects, r.y = g.y ∧ r.height = g.height) ∧
        rects.head?.map Geometry.x = some g.x ∧
        (∀ i, i + 1 < ws.length → (rects.get? i).map Geometry.width =
          some (floorNatQ
            (((g.width - c.gap * (c.children.length - 1) : Nat) : ℚ) *
              c.ratios.getD i 0))) ∧
        (∀ i a b, rects.get? i = some a → rects.get? (i + 1) = some b →
          b.x = a.x + (a.width : Int) + (c.gap : Int)) ∧
        (rects.map Geometry.width).sum + c.gap * (c.children.length - 1) =
          g.width ∧
        (∀ h : rects ≠ [], (rects.getLast h).x +
          ((rects.getLast h).width : Int) = g.x + (g.width : Int))) ∧
    (c.split_direction = .vertical →
      c.gap * (c.children.length - 1) ≤ g.height → g.height < 4294967296 →
      ∃ rects : List Geometry,
        rects = splitRectsV c.children c.ratios (1 / (c.children.length : ℚ))
          c.gap (g.height - c.gap * (c.children.length - 1)) g.y g ∧
        rects.length = ws.length ∧
        (∀ i wid, ws.get? i = some wid →
          assocGet (layoutNode (fuel + 1) t (.container cid)
            g).window_geometries wid = rects.get? i) ∧
        (∀ r ∈ rects, r.x = g.x ∧ r.width = g.width) ∧
        rects.head?.map Geometry.y = some g.y ∧
        (∀ i, i + 1 < ws.length → (rects.get? i).map Geometry.height =
          some (floorNatQ
            (((g.height - c.gap * (c.children.length - 1) : Nat) : ℚ) *
              c.ratios.getD i 0))) ∧
        (∀ i a b, rects.get? i = some a → rects.get? (i + 1) = some b →
          b.y = a.y + (a.height : Int) + (c.gap : Int)) ∧
        (rects.map Geometry.height).sum + c.gap * (c.children.length - 1) =
          g.height ∧
        (∀ h : rects ≠ [], (rects.getLast h).y +
          ((rects.getLast h).height : Int) = g.y + (g.height : Int))) := by
  have hchne : c.children ≠ [] := by
    rw [hch]
    intro h
    exact hne (List.map_eq_nil_iff.mp h)
  have hempty : c.children.isEmpty = false := by
    rw [List.isEmpty_eq_false]
    exact hchne
  have hcl : c.children.length = ws.length := by rw [hch, List.length_map]
  constructor
  · intro hdir hgap hw
    have hbud : ((g.width - c.gap * (c.children.length - 1) : Nat) : ℚ) *
        c.ratios.sum ≤ ((g.width - c.gap * (c.children.length - 1) : Nat) : ℚ) := by
      have h0 : (0 : ℚ) ≤
          ((g.width - c.gap * (c.children.length - 1) : Nat) : ℚ) := by
        positivity
      calc ((g.width - c.gap * (c.children.length - 1) : Nat) : ℚ) *
            c.ratios.sum
          ≤ ((g.width - c.gap * (c.children.length - 1) : Nat) : ℚ) * 1 :=
            mul_le_mul_of_nonneg_left hsum h0
        _ = _ := mul_one _
    have hxinv : g.x + (g.width : Int) - g.x =
        (((g.width - c.gap * (c.children.length - 1)) +
          c.gap * (c.children.length - 1) : Nat) : Int) := by
      have : (g.width - c.gap * (c.children.length - 1)) +
          c.gap * (c.children.length - 1) = g.width :=
        Nat.sub_add_cancel hgap
      rw [this]
      omega
    obtain ⟨slen, syh, shead, swidths, schain, ssum, slast⟩ :=
      splitRectsH_spec c.children c.ratios (1 / (c.children.length : ℚ))
        c.gap (g.width - c.gap * (c.children.length - 1))
        (g.width - c.gap * (c.children.length - 1)) g.x g hchne hlen hpos
        hbud hxinv (Nat.sub_le _ _) hw
    have hstep : layoutNode (fuel + 1) t (.container cid) g =
        (c.children.zip (splitRectsH c.children c.ratios
          (1 / (c.children.length : ℚ)) c.gap
          (g.width - c.gap * (c.children.length - 1)) g.x g)).foldl
          (fun t' p => layoutNode fuel t' p.1 p.2) (setTreeGeo t cid g) := by
      show layoutContainerGo (layoutNode fuel) t cid g = _
      simp only [layoutContainerGo, hc, layoutContainerBody, hempty, hmode,
        Bool.false_eq_true, if_false, splitTasks, hdir]
    refine ⟨_, rfl, ?_, ?_, ?_, ?_, ?_, ?_, ?_, ?_⟩
    · rw [slen, hcl]
    · intro i wid hget
      have hfg := foldl_windows_get fuel ws
        (splitRectsH c.children c.ratios (1 / (c.children.length : ℚ)) c.gap
          (g.width - c.gap * (c.children.length - 1)) g.x g)
        (setTreeGeo t cid g) hnodup (slen.trans hcl).symm i wid hget
      rw [← hch] at hfg
      rw [hstep]
      exact hfg
    · exact syh
    · exact shead
    · intro i hi
      exact swidths i (by rw [hcl]; exact hi)
    · exact schain
    · rw [ssum]
      exact Nat.sub_add_cancel hgap
    · exact slast
  · intro hdir hgap hh
    have hbud : ((g.height - c.gap * (c.children.length - 1) : Nat) : ℚ) *
        c.ratios.sum ≤ ((g.height - c.gap * (c.children.length - 1) : Nat) : ℚ) := by
      have h0 : (0 : ℚ) ≤
          ((g.height - c.gap * (c.children.length - 1) : Nat) : ℚ) := by
        positivity
      calc ((g.height - c.gap * (c.children.length - 1) : Nat) : ℚ) *
            c.ratios.sum
          ≤ ((g.height - c.gap * (c.children.length - 1) : Nat) : ℚ) * 1 :=
            mul_le_mul_of_nonneg_left hsum h0
        _ = _ := mul_one _
    have hyinv : g.y + (g.height : Int) - g.y =
        (((g.height - c.gap * (c.children.length - 1)) +
          c.gap * (c.children.length - 1) : Nat) : Int) := by
      have : (g.height - c.gap * (c.children.length - 1)) +
          c.gap * (c.children.length - 1) = g.height :=
        Nat.sub_add_cancel hgap
      rw [this]
      omega
    obtain ⟨slen, sxw, shead, sheights, schain, ssum, slast⟩ :=
      splitRectsV_spec c.children c.ratios (1 / (c.children.length : ℚ))
        c.gap (g.height - c.gap * (c.children.length - 1))
        (g.height - c.gap * (c.children.length - 1)) g.y g hchne hlen hpos
        hbud hyinv (Nat.sub_le _ _) hh
    have hstep : layoutNode (fuel + 1) t (.container cid) g =
        (c.children.zip (splitRectsV c.children c.ratios
          (1 / (c.children.length : ℚ)) c.gap
          (g.height - c.gap * (c.children.length - 1)) g.y g)).foldl
          (fun t' p => layoutNode fuel t' p.1 p.2) (setTreeGeo t cid g) := by
      show layoutContainerGo (layoutNode fuel) t cid g = _
      simp only [layoutContainerGo, hc, layoutContainerBody, hempty, hmode,
        Bool.false_eq_true, if_false, splitTasks, hdir]
    refine ⟨_, rfl, ?_, ?_, ?_, ?_, ?_, ?_, ?_, ?_⟩
    · rw [slen, hcl]
    · intro i wid hget
      have hfg := foldl_windows_get fuel ws
        (splitRectsV c.children c.ratios (1 / (c.children.length : ℚ)) c.gap
          (g.height - c.gap * (c.children.length - 1)) g.y g)
        (setTreeGeo t cid g) hnodup (slen.trans hcl).symm i wid hget
      rw [← hch] at hfg
      rw [hstep]
      exact hfg
    · exact sxw
    · exact shead
    · intro i hi
      exact sheights i (by rw [hcl]; exact hi)
    · exact schain
    · rw [ssum]
      exact Nat.sub_add_cancel hgap
    · exact slast

/-- Concrete 3-window horizontal split container for the C1 witness:
ratios `[1/2, 1/4, 1/4]`, gap 5, laid out over `100 × 50` at the
origin. -/
def containerW : Container :=
  { id := 1, parent := none,
    children := [.window 10, .window 20, .window 30],
    layout := .split, split_direction := .horizontal,
    ratios := [1 / 2, 1 / 4, 1 / 4], focused_child := 0,
    geometry := default, gap := 5 }

/-- Singleton tree holding `containerW` as root. -/
def treeW : LayoutTree :=
  { containers := [(1, containerW)], root := some 1,
    focused_container := some 1, default_direction := .horizontal,
    window_geometries := [] }

/-- The rectangle `containerW` is laid out over in the C1 witness. -/
def geomW : Geometry := ⟨0, 0, 100, 50⟩

/-- C1 witness: `layout_split_partitions` applied to the concrete
3-window container. -/
theorem layout_split_partitions_witness :
    (containerW.split_direction = .horizontal →
      containerW.gap * (containerW.children.length - 1) ≤ geomW.width →
      geomW.width < 4294967296 →
      ∃ rects : List Geometry,
        rects = splitRectsH containerW.children containerW.ratios
          (1 / (containerW.children.length : ℚ)) containerW.gap
          (geomW.width - containerW.gap * (containerW.children.length - 1))
          geomW.x geomW ∧
        rects.length = [10, 20, 30].length ∧
        (∀ i wid, [10, 20, 30].get? i = some wid →
          assocGet (layoutNode (1 + 1) treeW (.container 1)
            geomW).window_geometries wid = rects.get? i) ∧
        (∀ r ∈ rects, r.y = geomW.y ∧ r.height = geomW.height) ∧
        rects.head?.map Geometry.x = some geomW.x ∧
        (∀ i, i + 1 < [10, 20, 30].length →
          (rects.get? i).map Geometry.width = some (floorNatQ
            (((geomW.width - containerW.gap *
              (containerW.children.length - 1) : Nat) : ℚ) *
              containerW.ratios.getD i 0))) ∧
        (∀ i a b, rects.get? i = some a → rects.get? (i + 1) = some b →
          b.x = a.x + (a.width : Int) + (containerW.gap : Int)) ∧
        (rects.map Geometry.width).sum + containerW.gap *
          (containerW.children.length - 1) = geomW.width ∧
        (∀ h : rects ≠ [], (rects.getLast h).x +
          ((rects.getLast h).width : Int) = geomW.x + (geomW.width : Int))) ∧
    (containerW.split_direction = .vertical →
      containerW.gap * (containerW.children.length - 1) ≤ geomW.height →
      geomW.height < 4294967296 →
      ∃ rects : List Geometry,
        rects = splitRectsV containerW.children containerW.ratios
          (1 / (containerW.children.length : ℚ)) containerW.gap
          (geomW.height - containerW.gap * (containerW.children.length - 1))
          geomW.y geomW ∧
        rects.length = [10, 20, 30].length ∧
        (∀ i wid, [10, 20, 30].get? i = some wid →
          assocGet (layoutNode (1 + 1) treeW (.container 1)
            geomW).window_geometries wid = rects.get? i) ∧
        (∀ r ∈ rects, r.x = geomW.x ∧ r.width = geomW.width) ∧
        rects.head?.map Geometry.y = some geomW.y ∧
        (∀ i, i + 1 < [10, 20, 30].length →
          (rects.get? i).map Geometry.height = some (floorNatQ
            (((geomW.height - containerW.gap *
              (containerW.children.length - 1) : Nat) : ℚ) *
              containerW.ratios.getD i 0))) ∧
        (∀ i a b, rects.get? i = some a → rects.get? (i + 1) = some b →
          b.y = a.y + (a.height : Int) + (containerW.gap : Int)) ∧
        (rects.map Geometry.height).sum + containerW.gap *
          (containerW.children.length - 1) = geomW.height ∧
        (∀ h : rects ≠ [], (rects.getLast h).y +
          ((rects.getLast h).height : Int) = geomW.y + (geomW.height : Int))) :=
  layout_split_partitions treeW 1 containerW geomW 1 [10, 20, 30] rfl rfl rfl
    (by decide) (by decide) rfl
    (by intro r hr; fin_cases hr <;> norm_num)
    (by norm_num [containerW])

-- ── window.rs ────────────────────────────────────────────────────

/-- `bitflags` membership test: `self.bits & other.bits == other.bits`. -/
def flagsContain (bits flag : Nat) : Bool := bits &&& flag = flag

/-- `bitflags` insertion: `self.bits |= other.bits`. -/
def flagsInsert (bits flag : Nat) : Nat := bits ||| flag

/-- `bitflags` removal: `self.bits &= !other.bits` (complement within
the 32-bit flag type). -/
def flagsRemove (bits flag : Nat) : Nat := bits &&& (4294967295 ^^^ flag)

namespace WindowState

def FOCUSED : Nat := 1
def FULLSCREEN : Nat := 2
def MAXIMIZED : Nat := 4
def HIDDEN : Nat := 8
def FLOATING : Nat := 16
def STICKY : Nat := 32
def URGENT : Nat := 64
def MOVING : Nat := 128
def RESIZING : Nat := 256
def DIALOG : Nat := 512
def MODAL : Nat := 1024

end WindowState

/-- `WindowType` (window.rs). -/
inductive WindowType where
  | normal
  | dialog
  | utility
  | toolbar
  | splash
  | menu
  | dropdownMenu
  | popupMenu
  | tooltip
  | notification
  | dock
  | desktop
deriving Repr, DecidableEq

/-- `BorderStyle` (window.rs); default is `Pixel(2)`. -/
inductive BorderStyle where
  | normal
  | pixel (w : Nat)
  | none
deriving Repr, DecidableEq

/-- `WorkspaceId` (workspace.rs). -/
abbrev WorkspaceId := Nat

/-- `Window` (window.rs).  `size_hints` and `opacity` are omitted: no
embedded operation reads them. -/
structure Window where
  id : WindowId
  title : String
  app_id : String
  «class» : String
  geometry : Geometry
  saved_geometry : Option Geometry
  state : Nat
  window_type : WindowType
  border : BorderStyle
  workspace : Option WorkspaceId
  pid : Option Nat
  marks : List String
  parent : Option WindowId
  children : List WindowId
  is_xwayland : Bool
deriving Repr, DecidableEq

/-- `Window::new`. -/
def Window.new (id : WindowId) (app_id title : String) : Window :=
  { id := id, title := title, app_id := app_id, «class» := "",
    geometry := default, saved_geometry := none, state := 0,
    window_type := .normal, border := .pixel 2, workspace := none,
    pid := none, marks := [], parent := none, children := [],
    is_xwayland := false }

/-- `Window::should_float`. -/
def Window.should_float (w : Window) : Bool :=
  (match w.window_type with
    | .dialog | .utility | .splash | .menu | .popupMenu | .tooltip
    | .notification => true
    | _ => false) ||
  w.parent.isSome || flagsContain w.state WindowState.MODAL

-- ── String helpers for the Rust standard library operations ──────

/-- The accumulator loop of `str::split_whitespace`. -/
def splitWsGo (acc : List Char) : List Char → List String
  | [] => if acc.isEmpty then [] else [⟨acc.reverse⟩]
  | c :: rest =>
      if c.isWhitespace then
        (if acc.isEmpty then splitWsGo [] rest
         else ⟨acc.reverse⟩ :: splitWsGo [] rest)
      else splitWsGo (c :: acc) rest

/-- `str::split_whitespace`: split on whitespace, drop empty pieces. -/
def splitWs (s : String) : List String := splitWsGo [] s.data

/-- `str::trim` (ASCII whitespace). -/
def trimAscii (s : String) : String :=
  ⟨((s.data.dropWhile Char.isWhitespace).reverse.dropWhile
    Char.isWhitespace).reverse⟩

/-- `str::to_lowercase` (every keyword compared against is ASCII). -/
def lowerAscii (s : String) : String := ⟨s.data.map Char.toLower⟩

/-- `u32::from_str`: optional `+` sign, decimal digits, range checked. -/
def parseU32? (s : String) : Option Nat :=
  let body := match s.data with
    | '+' :: rest => rest
    | l => l
  if body.length = 0 ∨ ¬ body.all Char.isDigit then none
  else
    let n : Nat := body.foldl (fun acc c => acc * 10 + (c.toNat - 48)) 0
    if n < 4294967296 then some n else none

/-- `i32::from_str`: optional sign, decimal digits, range checked. -/
def parseI32? (s : String) : Option Int :=
  let (neg, body) :=
    match s.data with
    | '-' :: rest => (true, rest)
    | '+' :: rest => (false, rest)
    | l => (false, l)
  if body.length = 0 ∨ ¬ body.all Char.isDigit then none
  else
    let n : Nat := body.foldl (fun acc c => acc * 10 + (c.toNat - 48)) 0
    if neg then
      if n ≤ 2147483648 then some (-(n : Int)) else none
    else
      if n < 2147483648 then some (n : Int) else none

-- ── workspace.rs ─────────────────────────────────────────────────

/-- `Workspace` (workspace.rs). -/
structure Workspace where
  id : WorkspaceId
  name : String
  number : Option Nat
  output : Option String
  layout : LayoutTree
  tiled_windows : List WindowId
  floating_windows : List WindowId
  fullscreen_window : Option WindowId
  focus_stack : List WindowId
  visible : Bool
  urgent : Bool
  geometry : Geometry
  work_area : Geometry
deriving Repr

/-- `Workspace::new`. -/
def Workspace.new (id : WorkspaceId) (name : String) : Workspace :=
  { id := id, name := name, number := parseU32? name, output := none,
    layout := LayoutTree.new, tiled_windows := [], floating_windows := [],
    fullscreen_window := none, focus_stack := [], visible := false,
    urgent := false, geometry := default, work_area := default }

/-- `Workspace::add_window` (threads the container-id counter). -/
def Workspace.add_window (ws : Workspace) (window_id : WindowId)
    (gaps_inner : Nat) (counter : Nat) : Workspace × Nat :=
  let ws := { ws with tiled_windows := ws.tiled_windows ++ [window_id] }
  let (tree, counter') := ws.layout.add_window window_id gaps_inner counter
  let ws := { ws with layout := tree }
  ({ ws with focus_stack := ws.focus_stack ++ [window_id] }, counter')

/-- `Workspace::remove_window`. -/
def Workspace.remove_window (ws : Workspace) (window_id : WindowId) :
    Workspace :=
  let ws := { ws with
    tiled_windows := ws.tiled_windows.filter (fun id => id ≠ window_id) }
  let ws := { ws with layout := ws.layout.remove_window window_id }
  let ws := { ws with
    floating_windows := ws.floating_windows.filter (fun id => id ≠ window_id),
    focus_stack := ws.focus_stack.filter (fun id => id ≠ window_id) }
  if ws.fullscreen_window = some window_id then
    { ws with fullscreen_window := none }
  else ws

/-- `Workspace::float_window`. -/
def Workspace.float_window (ws : Workspace) (window_id : WindowId) :
    Workspace :=
  if ws.tiled_windows.contains window_id then
    let ws := { ws with tiled_windows := ws.tiled_windows.erase window_id }
    let ws := { ws with layout := ws.layout.remove_window window_id }
    { ws with floating_windows := ws.floating_windows ++ [window_id] }
  else ws

/-- `Workspace::tile_window` (threads the container-id counter). -/
def Workspace.tile_window (ws : Workspace) (window_id : WindowId)
    (gaps_inner : Nat) (counter : Nat) : Workspace × Nat :=
  if ws.floating_windows.contains window_id then
    let ws := { ws with
      floating_windows := ws.floating_windows.erase window_id,
      tiled_windows := ws.tiled_windows ++ [window_id] }
    let (tree, counter') := ws.layout.add_window window_id gaps_inner counter
    ({ ws with layout := tree }, counter')
  else (ws, counter)

/-- `Workspace::calculate_layout`. -/
def Workspace.calculate_layout (ws : Workspace) (outer_gap : Nat) :
    Workspace :=
  { ws with layout := ws.layout.calculate_layout ws.work_area outer_gap }

/-- `Workspace::window_geometry`. -/
def Workspace.window_geometry (ws : Workspace) (window_id : WindowId) :
    Option Geometry :=
  assocGet ws.layout.window_geometries window_id

/-- `Workspace::set_geometry`. -/
def Workspace.set_geometry (ws : Workspace) (geometry : Geometry) :
    Workspace :=
  { ws with geometry := geometry, work_area := geometry }

-- ── state.rs ─────────────────────────────────────────────────────

/-- `Output` (state.rs). -/
structure Output where
  id : Nat
  name : String
  geometry : Geometry
  scale : ℚ
  refresh_rate : Nat
  workspaces : List WorkspaceId
  active_workspace : Option WorkspaceId
deriving Repr

/-- `FocusState` (state.rs). -/
structure FocusState where
  focused_window : Option WindowId
  previous_window : Option WindowId
  focused_workspace : Option WorkspaceId
  focus_history : List WindowId
deriving Repr, DecidableEq

instance : Inhabited FocusState := ⟨⟨none, none, none, []⟩⟩

/-- `FocusState::set_focused`: record the previously focused window on
the history stack (deduplicated, bounded at 100 by evicting the
oldest entry: `Vec::remove(0)` is `List.tail` after the push). -/
def FocusState.set_focused (f : FocusState) (window_id : WindowId) :
    FocusState :=
  if f.focused_window ≠ some window_id then
    let f := { f with previous_window := f.focused_window }
    let f := match f.focused_window with
      | some prev =>
          let hist := (f.focus_history.filter (fun id => id ≠ prev)) ++ [prev]
          let hist := if hist.length > 100 then hist.tail else hist
          { f with focus_history := hist }
      | none => f
    { f with focused_window := some window_id }
  else f

/-- `FocusState::clear_focused`. -/
def FocusState.clear_focused (f : FocusState) : FocusState :=
  { f with previous_window := f.focused_window, focused_window := none }

/-- `GrabOperation` (state.rs). -/
inductive GrabOperation where
  | move
  | resize
deriving Repr, DecidableEq

namespace ResizeEdges

def TOP : Nat := 1
def BOTTOM : Nat := 2
def LEFT : Nat := 4
def RIGHT : Nat := 8

end ResizeEdges

/-- `GrabbedWindow` (state.rs); `edges` is the `ResizeEdges` bitset. -/
structure GrabbedWindow where
  window_id : WindowId
  initial_geometry : Geometry
  initial_pointer : ℚ × ℚ
  operation : GrabOperation
  edges : Nat
deriving Repr, DecidableEq

/-- Modelled from the spec: `crates/fluxway-core/src/config.rs` is not
under `src/`; §6 of the spec says the core reads only `gaps`,
`general.focus_follows_mouse` and `bindings`, so the configuration is
modelled as exactly those (bindings reduced to the loaded-modifier
state, see `InputManager`). -/
structure Gaps where
  inner : Nat
  outer : Nat
deriving Repr, DecidableEq

/-- Modelled from the spec: the configuration fields the core reads. -/
structure Config where
  gaps : Gaps
  focus_follows_mouse : Bool
deriving Repr, DecidableEq

/-- `State` (state.rs).  The Rust global `NEXT_CONTAINER_ID` atomic is
modelled as the explicit `next_container_id` field. -/
structure State where
  config : Config
  windows : List (WindowId × Window)
  workspaces : List (WorkspaceId × Workspace)
  outputs : List (Nat × Output)
  containers : List (ContainerId × Container)
  focus : FocusState
  scratchpad : List WindowId
  marks : List (String × WindowId)
  running : Bool
  layout_dirty : Bool
  pointer_position : ℚ × ℚ
  grabbed_window : Option GrabbedWindow
  next_container_id : Nat
deriving Repr

/-- Lookup in the `String`-keyed marks map. -/
def marksGet (l : List (String × WindowId)) (k : String) : Option WindowId :=
  match l with
  | [] => none
  | (k', v) :: rest => if k' = k then some v else marksGet rest k

/-- Insert into the marks map (replace in place, else append). -/
def marksInsert (l : List (String × WindowId)) (k : String) (v : WindowId) :
    List (String × WindowId) :=
  match l with
  | [] => [(k, v)]
  | (k', v') :: rest =>
      if k' = k then (k, v) :: rest else (k', v') :: marksInsert rest k v

/-- `State::new`: ten pre-created workspaces named "1".."10". -/
def State.new (config : Config) : State :=
  { config := config, windows := [],
    workspaces := (List.range 10).map
      (fun i => (i + 1, Workspace.new (i + 1) (toString (i + 1)))),
    outputs := [], containers := [], focus := default, scratchpad := [],
    marks := [], running := true, layout_dirty := false,
    pointer_position := (0, 0), grabbed_window := none,
    next_container_id := 1 }

/-- `State::add_window`.  In Rust a missing workspace panics via
`expect`; that branch is unreachable (ten workspaces are pre-created)
and is modelled as a no-op. -/
def State.add_window (s : State) (window : Window) : State :=
  let id := window.id
  match s.focus.focused_workspace.orElse
      (fun _ => s.workspaces.head?.map Prod.fst) with
  | none => s
  | some workspace_id =>
      let window := { window with workspace := some workspace_id }
      let s := match assocGet s.workspaces workspace_id with
        | some ws =>
            let (ws', counter') :=
              ws.add_window id s.config.gaps.inner s.next_container_id
            { s with
              workspaces := assocInsert s.workspaces workspace_id ws'
              next_container_id := counter' }
        | none => s
      let s := { s with windows := assocInsert s.windows id window }
      { s with layout_dirty := true }

/-- The `while let Some(next) = history.pop()` loop of
`State::remove_window`, over the reversed history: returns the
restored id (first live one scanning backward) and what is left of the
history (everything before it), still reversed. -/
def popLiveRev (windows : List (WindowId × Window)) :
    List WindowId → Option WindowId × List WindowId
  | [] => (none, [])
  | next :: rest =>
      if (assocGet windows next).isSome then (some next, rest)
      else popLiveRev windows rest

/-- `State::remove_window`; returns the removed window with the new
state (`none` when the id does not exist). -/
def State.remove_window (s : State) (window_id : WindowId) :
    Option (Window × State) :=
  match assocGet s.windows window_id with
  | none => none
  | some window =>
      let s := { s with windows := assocRemove s.windows window_id }
      let s := match window.workspace with
        | some workspace_id =>
            (match assocGet s.workspaces workspace_id with
              | some ws =>
                  { s with
                    workspaces := assocInsert s.workspaces workspace_id
                      (ws.remove_window window_id) }
              | none => s)
        | none => s
      let s :=
        if s.focus.focused_window = some window_id then
          let f := s.focus.clear_focused
          let (restored, remRev) := popLiveRev s.windows f.focus_history.reverse
          { s with
            focus := { f with
              focused_window := restored
              focus_history := remRev.reverse } }
        else s
      let s := { s with focus := { s.focus with
        focus_history := s.focus.focus_history.filter
          (fun id => id ≠ window_id) } }
      let s := { s with
        scratchpad := s.scratchpad.filter (fun id => id ≠ window_id) }
      let s := { s with
        marks := s.marks.filter (fun p => p.2 ≠ window_id) }
      some (window, { s with layout_dirty := true })

/-- `State::focus_window`. -/
def State.focus_window (s : State) (window_id : WindowId) : State :=
  if (assocGet s.windows window_id).isNone then s
  else
    let s := match s.focus.focused_window with
      | some current =>
          (match assocGet s.windows current with
            | some w =>
                { s with
                  windows := assocInsert s.windows current
                    { w with state := flagsRemove w.state WindowState.FOCUSED } }
            | none => s)
      | none => s
    let s := { s with focus := s.focus.set_focused window_id }
    match assocGet s.windows window_id with
    | some w =>
        let s := { s with
          windows := assocInsert s.windows window_id
            { w with state := flagsInsert w.state WindowState.FOCUSED } }
        (match w.workspace with
          | some ws_id =>
              { s with focus := { s.focus with
                  focused_workspace := some ws_id } }
          | none => s)
    | none => s

/-- `State::switch_workspace`. -/
def State.switch_workspace (s : State) (workspace_id : WorkspaceId) : State :=
  if (assocGet s.workspaces workspace_id).isNone then s
  else
    let s := { s with focus := { s.focus with
        focused_workspace := some workspace_id } }
    let s := match assocGet s.workspaces workspace_id with
      | some ws =>
          (match ws.focus_stack.getLast? with
            | some window_id => s.focus_window window_id
            | none => s)
      | none => s
    { s with layout_dirty := true }

/-- `State::move_window_to_workspace`. -/
def State.move_window_to_workspace (s : State) (window_id : WindowId)
    (target_workspace : WorkspaceId) : State :=
  match assocGet s.windows window_id with
  | none => s
  | some window =>
      let old_workspace := window.workspace
      let s := { s with
        windows := assocInsert s.windows window_id
          { window with workspace := some target_workspace } }
      let s := match old_workspace with
        | some old_ws_id =>
            (match assocGet s.workspaces old_ws_id with
              | some old_ws =>
                  { s with
                    workspaces := assocInsert s.workspaces old_ws_id
                      (old_ws.remove_window window_id) }
              | none => s)
        | none => s
      let s := match assocGet s.workspaces target_workspace with
        | some new_ws =>
            let (new_ws', counter') := new_ws.add_window window_id
              s.config.gaps.inner s.next_container_id
            { s with
              workspaces := assocInsert s.workspaces target_workspace new_ws'
              next_container_id := counter' }
        | none => s
      { s with layout_dirty := true }

/-- `State::toggle_scratchpad`. -/
def State.toggle_scratchpad (s : State) (window_id : WindowId) : State :=
  let s :=
    if s.scratchpad.contains window_id then
      let s := { s with scratchpad := s.scratchpad.erase window_id }
      match assocGet s.windows window_id with
      | some w =>
          { s with
            windows := assocInsert s.windows window_id
              { w with state := flagsRemove w.state WindowState.HIDDEN } }
      | none => s
    else
      let s := { s with scratchpad := s.scratchpad ++ [window_id] }
      match assocGet s.windows window_id with
      | some w =>
          { s with
            windows := assocInsert s.windows window_id
              { w with state := flagsInsert w.state WindowState.HIDDEN } }
      | none => s
  { s with layout_dirty := true }

/-- `State::set_mark`. -/
def State.set_mark (s : State) (mark : String) (window_id : WindowId) :
    State :=
  { s with marks := marksInsert s.marks mark window_id }

/-- `State::goto_mark`. -/
def State.goto_mark (s : State) (mark : String) : State :=
  match marksGet s.marks mark with
  | none => s
  | some window_id =>
      let s := s.focus_window window_id
      match assocGet s.windows window_id with
      | some w =>
          (match w.workspace with
            | some ws_id =>
                if s.focus.focused_workspace ≠ some ws_id then
                  s.switch_workspace ws_id
                else s
            | none => s)
      | none => s

/-- Rust `f64 as i32`: truncation toward zero (saturation at the i32
bounds is irrelevant at the coordinates considered here). -/
def truncQ (q : ℚ) : Int := Int.tdiv q.num (q.den : Int)

/-- The inner hit-test loops of `State::window_at`: topmost first. -/
def windowAtList (windows : List (WindowId × Window)) (ids : List WindowId)
    (xi yi : Int) : Option WindowId :=
  ids.reverse.find? (fun wid =>
    match assocGet windows wid with
    | some w =>
        !(flagsContain w.state WindowState.HIDDEN) &&
          w.geometry.containsPt xi yi
    | none => false)

/-- The workspace loop of `State::window_at`: non-focused workspaces
are skipped, floating windows are checked before tiled ones. -/
def windowAtGo (windows : List (WindowId × Window))
    (focused : Option WorkspaceId) (xi yi : Int) :
    List (WorkspaceId × Workspace) → Option WindowId
  | [] => none
  | (_, ws) :: rest =>
      if some ws.id ≠ focused then windowAtGo windows focused xi yi rest
      else match windowAtList windows ws.floating_windows xi yi with
        | some wid => some wid
        | none =>
            match windowAtList windows ws.tiled_windows xi yi with
            | some wid => some wid
            | none => windowAtGo windows focused xi yi rest

/-- `State::window_at`. -/
def State.window_at (s : State) (x y : ℚ) : Option WindowId :=
  windowAtGo s.windows s.focus.focused_workspace (truncQ x) (truncQ y)
    s.workspaces.reverse

/-- `State::needs_layout`. -/
def State.needs_layout (s : State) : Bool := s.layout_dirty

-- ── event.rs / lib.rs (Core orchestrator) ────────────────────────

/-- `CoreAction` (event.rs). -/
inductive CoreAction where
  | setWindowGeometry (id : WindowId) (x y : Int) (w h : Nat)
  | setFocus (id : Option WindowId)
  | requestClose (id : WindowId)
  | setFloating (id : WindowId) (floating : Bool)
  | workspaceChanged (active : Option WorkspaceId)
  | spawnProcess (command : String)
  | reloadConfig
  | exit
deriving Repr, DecidableEq

/-- Modelled from the spec: `crates/fluxway-core/src/input.rs` is not
under `src/`; of the `InputManager` only the live modifier bitset is
read by the embedded handlers.  The bit layout matches the legacy
crate (`src/src/input.rs`): `SUPER = 0b1000`. -/
structure InputManager where
  modifiers : Nat
deriving Repr, DecidableEq

namespace Modifiers

def SHIFT : Nat := 1
def CTRL : Nat := 2
def ALT : Nat := 4
def SUPER : Nat := 8

end Modifiers

/-- `ResizeEdge` (lib.rs). -/
inductive ResizeEdge where
  | top
  | bottom
  | left
  | right
  | topLeft
  | topRight
  | bottomLeft
  | bottomRight
deriving Repr, DecidableEq

/-- `ResizeEdge::from_point`: the 3×3 grid classification.  The
source computes the four third-boundary booleans and matches on the
tuple; the if-chain below reproduces the match arms in order. -/
def ResizeEdge.from_point (px py : ℚ) (geo : Geometry) : ResizeEdge :=
  let x := px - (geo.x : ℚ)
  let y := py - (geo.y : ℚ)
  let width := (geo.width : ℚ)
  let height := (geo.height : ℚ)
  if x < width / 3 ∧ y < height / 3 then .topLeft
  else if x > width * 2 / 3 ∧ y < height / 3 then .topRight
  else if x < width / 3 ∧ y > height * 2 / 3 then .bottomLeft
  else if x > width * 2 / 3 ∧ y > height * 2 / 3 then .bottomRight
  else if x < width / 3 then .left
  else if x > width * 2 / 3 then .right
  else if y < height / 3 then .top
  else if y > height * 2 / 3 then .bottom
  else .bottomRight

/-- `ResizeEdge::to_edges`. -/
def ResizeEdge.to_edges : ResizeEdge → Nat
  | .top => ResizeEdges.TOP
  | .bottom => ResizeEdges.BOTTOM
  | .left => ResizeEdges.LEFT
  | .right => ResizeEdges.RIGHT
  | .topLeft => ResizeEdges.TOP ||| ResizeEdges.LEFT
  | .topRight => ResizeEdges.TOP ||| ResizeEdges.RIGHT
  | .bottomLeft => ResizeEdges.BOTTOM ||| ResizeEdges.LEFT
  | .bottomRight => ResizeEdges.BOTTOM ||| ResizeEdges.RIGHT

/-- `Core` (lib.rs). -/
structure Core where
  state : State
  input_manager : InputManager
  scratchpad_visible : List WindowId
  next_wid : Nat
  should_exit : Bool

/-- `Core::new`. -/
def Core.new (config : Config) : Core :=
  { state := State.new config, input_manager := ⟨0⟩,
    scratchpad_visible := [], next_wid := 1, should_exit := false }

/-- `Core::relayout_actions`: relayout the focused workspace and
produce one geometry action per tiled window with a cached geometry
(in `tiled_windows` order); clears the dirty flag. -/
def Core.relayout_actions (core : Core) : List CoreAction × Core :=
  match core.state.focus.focused_workspace with
  | none => ([], core)
  | some ws_id =>
      let outer_gap := core.state.config.gaps.outer
      let st := match assocGet core.state.workspaces ws_id with
        | some ws =>
            { core.state with
              workspaces := assocInsert core.state.workspaces ws_id
                (ws.calculate_layout outer_gap) }
        | none => core.state
      let actions := match assocGet st.workspaces ws_id with
        | some ws =>
            ws.tiled_windows.filterMap (fun wid =>
              (ws.window_geometry wid).map (fun geo =>
                CoreAction.setWindowGeometry wid geo.x geo.y geo.width
                  geo.height))
        | none => []
      let st := { st with layout_dirty := false }
      (actions, { core with state := st })

/-- `Core::update_window_visibility`. -/
def Core.update_window_visibility (core : Core) : Core :=
  let current_ws_id := core.state.focus.focused_workspace
  { core with
    state := { core.state with
      windows := core.state.windows.map (fun p =>
        let w := p.2
        let should_show := w.workspace = current_ws_id ∨
          core.scratchpad_visible.contains p.1 ∨
          flagsContain w.state WindowState.STICKY
        if should_show then
          (p.1, { w with state := flagsRemove w.state WindowState.HIDDEN })
        else
          (p.1, { w with state := flagsInsert w.state WindowState.HIDDEN })) } }

/-- The window value constructed at the top of `Core::on_window_mapped`
(factored out of the handler). -/
def buildMappedWindow (id : WindowId) (app_id title : Option String)
    (pid : Option Nat) (initial_geometry : Option Geometry)
    (is_xwayland : Bool) : Window :=
  let window := Window.new id (app_id.getD "") (title.getD "")
  let window := { window with pid := pid, is_xwayland := is_xwayland }
  let window := match initial_geometry with
    | some geo => { window with geometry := geo }
    | none => window
  if window.should_float then
    { window with state := flagsInsert window.state WindowState.FLOATING }
  else window

/-- `Core::on_window_mapped`. -/
def Core.on_window_mapped (core : Core) (id : WindowId)
    (app_id title : Option String) (pid : Option Nat)
    (initial_geometry : Option Geometry) (is_xwayland : Bool) :
    List CoreAction × Core :=
  let window := buildMappedWindow id app_id title pid initial_geometry
    is_xwayland
  let added_id := window.id
  let core := { core with state := core.state.add_window window }
  let core := { core with state := core.state.focus_window added_id }
  let actions := [CoreAction.setFocus (some added_id)]
  let (relayout, core) := core.relayout_actions
  (actions ++ relayout, core)

/-- `Core::on_tick`. -/
def Core.on_tick (core : Core) : List CoreAction × Core :=
  if core.state.needs_layout then
    let (actions, core) := core.relayout_actions
    let core := { core with
      state := { core.state with layout_dirty := false } }
    let core := core.update_window_visibility
    (actions, core)
  else ([], core)

/-- `Core::tick`. -/
def Core.tick (core : Core) : List CoreAction × Core := core.on_tick

/-- `Core::on_pointer_button`.  The `else { return actions }` early
exit for buttons other than 272/273/274 is modelled as the `none`
branch of `withGrab`. -/
def Core.on_pointer_button (core : Core) (button : Nat) (pressed : Bool) :
    List CoreAction × Core :=
  let px := core.state.pointer_position.1
  let py := core.state.pointer_position.2
  let withGrab : Option Core :=
    if pressed && flagsContain core.input_manager.modifiers Modifiers.SUPER
    then
      match core.state.window_at px py with
      | some window_id =>
          (match assocGet core.state.windows window_id with
            | some window =>
                let geo := window.geometry
                if button = 272 then
                  some { core with
                    state := { core.state with
                      grabbed_window := some ⟨window_id, geo, (px, py),
                        .move, 0⟩ } }
                else if button = 273 ∨ button = 274 then
                  some { core with
                    state := { core.state with
                      grabbed_window := some ⟨window_id, geo, (px, py),
                        .resize,
                        (ResizeEdge.from_point px py geo).to_edges⟩ } }
                else none
            | none => some core)
      | none => some core
    else some core
  match withGrab with
  | none => ([], core)
  | some core =>
      let core :=
        if !pressed then
          { core with state := { core.state with grabbed_window := none } }
        else core
      if pressed && button = 272 && core.state.grabbed_window.isNone then
        match core.state.window_at px py with
        | some window_id =>
            ([CoreAction.setFocus (some window_id)],
              { core with state := core.state.focus_window window_id })
        | none => ([], core)
      else ([], core)

/-- `Core::focused_workspace`. -/
def Core.focused_workspace (core : Core) : Option WorkspaceId :=
  core.state.focus.focused_workspace

/-- `Core::focused_window`. -/
def Core.focused_window (core : Core) : Option WindowId :=
  core.state.focus.focused_window

/-- `relayout_actions` never touches focus bookkeeping. -/
theorem relayout_actions_focus (core : Core) :
    (core.relayout_actions).2.state.focus = core.state.focus := by
  unfold Core.relayout_actions
  cases hfw : core.state.focus.focused_workspace with
  | none => rfl
  | some ws_id =>
      simp only
      split <;> rfl

/-- After `relayout_actions` on a core with a focused workspace the
dirty flag is clear. -/
theorem relayout_actions_dirty (core : Core) (k : WorkspaceId)
    (h : core.state.focus.focused_workspace = some k) :
    (core.relayout_actions).2.state.layout_dirty = false := by
  unfold Core.relayout_actions
  rw [h]

/-- `State::add_window` registers the window (tagged with the target
workspace) and leaves focus untouched. -/
theorem add_window_spec (s : State) (window : Window) (wsid : WorkspaceId)
    (h : s.focus.focused_workspace.orElse
      (fun _ => s.workspaces.head?.map Prod.fst) = some wsid) :
    assocGet (s.add_window window).windows window.id =
      some { window with workspace := some wsid } ∧
    (s.add_window window).focus = s.focus := by
  unfold State.add_window
  rw [h]
  simp only
  split <;> exact ⟨assocGet_assocInsert_self _ _ _, rfl⟩

theorem set_focused_focused (f : FocusState) (wid : WindowId) :
    (f.set_focused wid).focused_window = some wid := by
  unfold FocusState.set_focused
  split
  · cases f.focused_window <;> simp
  · rename_i h
    simp only [ne_eq, not_not] at h
    exact h

/-- `State::focus_window` on an existing window focuses it and derives
the focused workspace from it; the dirty flag is untouched. -/
theorem focus_window_sets (s : State) (wid : WindowId) (w : Window)
    (wsid : WorkspaceId) (hw : assocGet s.windows wid = some w)
    (hws : w.workspace = some wsid) :
    (s.focus_window wid).focus.focused_window = some wid ∧
    (s.focus_window wid).focus.focused_workspace = some wsid ∧
    (s.focus_window wid).layout_dirty = s.layout_dirty := by
  unfold State.focus_window
  rw [hw]
  simp only [Option.isNone_some, Bool.false_eq_true, if_false]
  cases hcur : s.focus.focused_window with
  | none =>
      dsimp only
      rw [hw]
      dsimp only
      rw [hws]
      exact ⟨set_focused_focused _ _, rfl, rfl⟩
  | some current =>
      dsimp only
      cases hget : assocGet s.windows current with
      | none =>
          dsimp only
          rw [hw]
          dsimp only
          rw [hws]
          exact ⟨set_focused_focused _ _, rfl, rfl⟩
      | some wcur =>
          dsimp only
          by_cases hc : current = wid
          · subst hc
            rw [assocGet_assocInsert_self]
            dsimp only
            have hwork : ({ wcur with
                state := flagsRemove wcur.state WindowState.FOCUSED } :
                  Window).workspace = some wsid := by
              have heq : wcur = w := by
                rw [hget] at hw
                exact Option.some.inj hw
              rw [heq]
              exact hws
            rw [hwork]
            exact ⟨set_focused_focused _ _, rfl, rfl⟩
          · rw [assocGet_assocInsert_ne _ _ _ _ (fun he => hc he.symm), hw]
            dsimp only
            rw [hws]
            exact ⟨set_focused_focused _ _, rfl, rfl⟩

theorem buildMappedWindow_id (id : WindowId) (app_id title : Option String)
    (pid : Option Nat) (geo : Option Geometry) (xw : Bool) :
    (buildMappedWindow id app_id title pid geo xw).id = id := by
  unfold buildMappedWindow
  cases geo <;> dsimp only <;> split <;> rfl

/-- One `WindowMapped` event: the new window ends up focused, the
focused workspace is the insertion target, and the dirty flag has
been cleared by the relayout that ran inside the handler. -/
theorem on_window_mapped_spec (core : Core) (id : WindowId)
    (app_id title : Option String) (pid : Option Nat) (geo : Option Geometry)
    (xw : Bool) (wsid : WorkspaceId)
    (h : core.state.focus.focused_workspace.orElse
      (fun _ => core.state.workspaces.head?.map Prod.fst) = some wsid) :
    (core.on_window_mapped id app_id title pid geo xw).2.focused_window =
      some id ∧
    (core.on_window_mapped id app_id title pid geo
      xw).2.state.focus.focused_workspace = some wsid ∧
    (core.on_window_mapped id app_id title pid geo
      xw).2.state.layout_dirty = false := by
  unfold Core.on_window_mapped
  dsimp only
  set w := buildMappedWindow id app_id title pid geo xw with hw
  have hid : w.id = id := buildMappedWindow_id id app_id title pid geo xw
  rw [hid]
  have hadd := add_window_spec core.state w wsid h
  rw [hid] at hadd
  have hfocus := focus_window_sets (core.state.add_window w) id
    { w with id := id, workspace := some wsid } wsid hadd.1 rfl
  set core2 : Core := { core with
    state := (core.state.add_window w).focus_window id } with hc2
  have hfw2 : core2.state.focus.focused_workspace = some wsid := hfocus.2.1
  have hfoc2 : core2.state.focus.focused_window = some id := hfocus.1
  have hrel := relayout_actions_focus core2
  have hdirty := relayout_actions_dirty core2 wsid hfw2
  rcases hR : core2.relayout_actions with ⟨racts, rcore⟩
  have h2 : (core2.relayout_actions).2 = rcore := by rw [hR]
  rw [h2] at hrel hdirty
  dsimp only
  refine ⟨?_, ?_, hdirty⟩
  · show rcore.state.focus.focused_window = some id
    rw [hrel]
    exact hfoc2
  · show rcore.state.focus.focused_workspace = some wsid
    rw [hrel]
    exact hfw2

/-- C3 (code defect): starting from a fresh `Core` (any gap
configuration), mapping three windows W1, W2, W3 leaves W3 focused —
but the subsequent `tick()` returns NO actions at all (in particular
no `SetWindowGeometry`), because `relayout_actions` already cleared
`layout_dirty` at the end of each `WindowMapped` event.  This
contradicts the spec's Scenario B and the crate's own integration
test (`focus_movement_across_tiled_windows`), which demand ≥ 3
geometry actions from this `tick()`. -/
theorem scenario_b_tick_is_empty (gi go : Nat) (ffm : Bool) :
    (((((Core.new ⟨⟨gi, go⟩, ffm⟩).on_window_mapped 1 none none none none
        false).2.on_window_mapped 2 none none none none
        false).2.on_window_mapped 3 none none none none
        false).2.focused_window = some 3) ∧
    ((((Core.new ⟨⟨gi, go⟩, ffm⟩).on_window_mapped 1 none none none none
        false).2.on_window_mapped 2 none none none none
        false).2.on_window_mapped 3 none none none none
        false).2.tick.1 = [] := by
  have h0 : (Core.new ⟨⟨gi, go⟩, ffm⟩).state.focus.focused_workspace.orElse
      (fun _ => (Core.new ⟨⟨gi, go⟩, ffm⟩).state.workspaces.head?.map
        Prod.fst) = some 1 := rfl
  have h1 := on_window_mapped_spec (Core.new ⟨⟨gi, go⟩, ffm⟩) 1 none none none
    none false 1 h0
  set c1 := ((Core.new ⟨⟨gi, go⟩, ffm⟩).on_window_mapped 1 none none none none
    false).2 with hc1
  have h1' : c1.state.focus.focused_workspace.orElse
      (fun _ => c1.state.workspaces.head?.map Prod.fst) = some 1 := by
    rw [h1.2.1]
    rfl
  have h2 := on_window_mapped_spec c1 2 none none none none false 1 h1'
  set c2 := (c1.on_window_mapped 2 none none none none false).2 with hc2
  have h2' : c2.state.focus.focused_workspace.orElse
      (fun _ => c2.state.workspaces.head?.map Prod.fst) = some 1 := by
    rw [h2.2.1]
    rfl
  have h3 := on_window_mapped_spec c2 3 none none none none false 1 h2'
  set c3 := (c2.on_window_mapped 3 none none none none false).2 with hc3
  refine ⟨h3.1, ?_⟩
  show c3.tick.1 = []
  unfold Core.tick Core.on_tick State.needs_layout
  rw [h3.2.2]
  rfl

/-! ### C4: `State::focus_window` -/

/-- A window that is already focused, living on workspace 1. -/
def wC4 : Window :=
  { Window.new 1 "app" "title" with
    state := WindowState.FOCUSED
    workspace := some 1 }

/-- A state whose only window (id 1) is currently focused. -/
def sC4 : State :=
  { State.new ⟨⟨0, 0⟩, false⟩ with
    windows := [(1, wC4)]
    focus := { focused_window := some 1
               previous_window := none
               focused_workspace := some 1
               focus_history := [] } }

/-- C4 counterexample: window 1 exists and is the currently focused
window, yet `focus_window 1` pushes nothing onto the focus history
(the history stays empty and the whole focus record is unchanged),
because `FocusState::set_focused` bails out when the id is already
focused.  The claim demanded the previously focused id be pushed for
EVERY window id present in `State.windows`. -/
theorem focus_window_refocus_counterexample :
    (assocGet sC4.windows 1).isSome = true ∧
    sC4.focus.focused_window = some 1 ∧
    (sC4.focus_window 1).focus.focus_history = [] ∧
    (sC4.focus_window 1).focus = sC4.focus :=
  ⟨rfl, rfl, rfl, rfl⟩

/-- `FocusState::set_focused` on a genuinely new id: the previous id is
deduplicated out of the history, pushed at the back, and the oldest
entry is evicted past 100. -/
theorem set_focused_push (f : FocusState) (wid prev : WindowId)
    (hprev : f.focused_window = some prev) (hne : prev ≠ wid) :
    (f.set_focused wid).focused_window = some wid ∧
    (f.set_focused wid).previous_window = some prev ∧
    (f.set_focused wid).focus_history =
      (if ((f.focus_history.filter (fun i => i ≠ prev)) ++
          [prev]).length > 100 then
        ((f.focus_history.filter (fun i => i ≠ prev)) ++ [prev]).tail
      else (f.focus_history.filter (fun i => i ≠ prev)) ++ [prev]) := by
  unfold FocusState.set_focused
  rw [hprev]
  rw [if_pos (by simp only [ne_eq, Option.some.injEq]; exact hne)]
  dsimp only
  exact ⟨rfl, rfl, rfl⟩

/-- C4 (amended): `focus_window wid` behaves as claimed whenever the
target `wid` exists and is NOT the window currently focused (and the
currently focused window `prev` also still exists): `prev` loses the
`FOCUSED` flag, `wid` gains it, `prev` is pushed onto the
(deduplicated, 100-bounded) focus history, and the focused workspace
is re-derived from the target's workspace.  The unamended claim fails
when `wid` is already focused: see
`focus_window_refocus_counterexample`. -/
theorem focus_window_spec (s : State) (wid prev : WindowId) (w pw : Window)
    (wsid : WorkspaceId)
    (hw : assocGet s.windows wid = some w)
    (hprev : s.focus.focused_window = some prev)
    (hpw : assocGet s.windows prev = some pw)
    (hne : prev ≠ wid)
    (hws : w.workspace = some wsid) :
    assocGet (s.focus_window wid).windows wid =
      some { w with state := flagsInsert w.state WindowState.FOCUSED } ∧
    assocGet (s.focus_window wid).windows prev =
      some { pw with state := flagsRemove pw.state WindowState.FOCUSED } ∧
    (s.focus_window wid).focus.focused_window = some wid ∧
    (s.focus_window wid).focus.focused_workspace = some wsid ∧
    (s.focus_window wid).focus.previous_window = some prev ∧
    (s.focus_window wid).focus.focus_history =
      (if ((s.focus.focus_history.filter (fun i => i ≠ prev)) ++
          [prev]).length > 100 then
        ((s.focus.focus_history.filter (fun i => i ≠ prev)) ++ [prev]).tail
      else (s.focus.focus_history.filter (fun i => i ≠ prev)) ++ [prev]) := by
  have hpush := set_focused_push s.focus wid prev hprev hne
  unfold State.focus_window
  rw [hw]
  simp only [Option.isNone_some, Bool.false_eq_true, if_false]
  rw [hprev]
  dsimp only
  rw [hpw]
  dsimp only
  rw [assocGet_assocInsert_ne _ _ _ _ (fun he => hne he.symm), hw]
  dsimp only
  rw [hws]
  dsimp only
  refine ⟨assocGet_assocInsert_self _ _ _, ?_, ?_, rfl, ?_, ?_⟩
  · rw [assocGet_assocInsert_ne _ _ _ _ hne]
    exact assocGet_assocInsert_self _ _ _
  · exact hpush.1
  · exact hpush.2.1
  · exact hpush.2.2

/-- A second window (id 2) on workspace 2, not focused. -/
def wC4b : Window :=
  { Window.new 2 "b" "b" with
    workspace := some 2 }

/-- A state where window 1 is focused and window 2 exists unfocused. -/
def sC4b : State :=
  { State.new ⟨⟨0, 0⟩, false⟩ with
    windows := [(1, wC4), (2, wC4b)]
    focus := { focused_window := some 1
               previous_window := none
               focused_workspace := some 1
               focus_history := [] } }

/-- Witness for `focus_window_spec` at the concrete state `sC4b`,
focusing window 2 while window 1 holds focus. -/
theorem focus_window_spec_witness :
    assocGet sC4b.windows 2 = some wC4b ∧
    sC4b.focus.focused_window = some 1 ∧
    assocGet sC4b.windows 1 = some wC4 ∧
    (1 : WindowId) ≠ 2 ∧
    wC4b.workspace = some 2 ∧
    (assocGet (sC4b.focus_window 2).windows 2 =
      some { wC4b with state := flagsInsert wC4b.state WindowState.FOCUSED } ∧
    assocGet (sC4b.focus_window 2).windows 1 =
      some { wC4 with state := flagsRemove wC4.state WindowState.FOCUSED } ∧
    (sC4b.focus_window 2).focus.focused_window = some 2 ∧
    (sC4b.focus_window 2).focus.focused_workspace = some 2 ∧
    (sC4b.focus_window 2).focus.previous_window = some 1 ∧
    (sC4b.focus_window 2).focus.focus_history =
      (if ((sC4b.focus.focus_history.filter (fun i => i ≠ 1)) ++
          [1]).length > 100 then
        ((sC4b.focus.focus_history.filter (fun i => i ≠ 1)) ++ [1]).tail
      else (sC4b.focus.focus_history.filter (fun i => i ≠ 1)) ++ [1])) :=
  ⟨rfl, rfl, rfl, by decide, rfl,
    focus_window_spec sC4b 2 1 wC4b wC4 2 rfl rfl rfl (by decide) rfl⟩

/-! ### C5 and C10: `State::remove_window` -/

theorem assocGet_assocRemove_self {α : Type} (l : List (Nat × α)) (k : Nat) :
    assocGet (assocRemove l k) k = none := by
  induction l with
  | nil => rfl
  | cons p rest ih =>
      by_cases h : p.1 = k
      · simpa [assocRemove, List.filter_cons, h] using ih
      · simpa [assocRemove, List.filter_cons, assocGet, h] using ih

theorem assocGet_assocRemove_ne {α : Type} (l : List (Nat × α)) (k k' : Nat)
    (h : ¬ k' = k) : assocGet (assocRemove l k) k' = assocGet l k' := by
  induction l with
  | nil => rfl
  | cons p rest ih =>
      by_cases hp : p.1 = k
      · subst hp
        have hne : ¬ p.1 = k' := fun he => h he.symm
        simpa [assocRemove, List.filter_cons, assocGet, hne] using ih
      · by_cases hpk : p.1 = k'
        · simp [assocRemove, List.filter_cons, assocGet, hp, hpk, h]
        · simpa [assocRemove, List.filter_cons, assocGet, hp, hpk] using ih

/-- The id `pop`ped out of the reversed history is the first live one,
i.e. a `find?` over the reversed history. -/
theorem popLiveRev_fst (windows : List (WindowId × Window))
    (hist : List WindowId) : (popLiveRev windows hist).1 =
      hist.find? (fun i => (assocGet windows i).isSome) := by
  induction hist with
  | nil => rfl
  | cons next rest ih =>
      unfold popLiveRev
      by_cases h : (assocGet windows next).isSome = true
      · rw [if_pos h]
        simp [List.find?, h]
      · rw [if_neg h, ih]
        simp [List.find?, h]

/-- C5: `State::remove_window` on an existing window id returns the
window and a state where (i) the id is gone from the window map,
(ii) the owning workspace (when it exists) dropped the window,
(iii) if the removed window held focus, the new focused window is the
first id of the history, scanned backward, that still exists (and
stays `none` when no live id remains), (iv) focus is untouched when
the removed window was not focused, and (v) the id is purged from the
scratchpad, the marks and the focus history. -/
theorem remove_window_spec (s : State) (wid : WindowId) (w : Window)
    (hw : assocGet s.windows wid = some w) :
    ∃ s2, s.remove_window wid = some (w, s2) ∧
      assocGet s2.windows wid = none ∧
      (∀ k ws, w.workspace = some k → assocGet s.workspaces k = some ws →
        assocGet s2.workspaces k = some (ws.remove_window wid)) ∧
      (s.focus.focused_window = some wid →
        s2.focus.focused_window = s.focus.focus_history.reverse.find?
          (fun i => (assocGet (assocRemove s.windows wid) i).isSome)) ∧
      (¬ s.focus.focused_window = some wid →
        s2.focus.focused_window = s.focus.focused_window) ∧
      s2.scratchpad = s.scratchpad.filter (fun i => i ≠ wid) ∧
      s2.marks = s.marks.filter (fun p => p.2 ≠ wid) ∧
      wid ∉ s2.focus.focus_history := by
  have hfind := popLiveRev_fst (assocRemove s.windows wid)
    s.focus.focus_history.reverse
  unfold State.remove_window
  rw [hw]
  dsimp only
  cases hwk : w.workspace with
  | none =>
      dsimp only
      by_cases hfoc : s.focus.focused_window = some wid
      · rw [if_pos hfoc]
        dsimp only [FocusState.clear_focused]
        generalize hplr : popLiveRev (assocRemove s.windows wid)
          s.focus.focus_history.reverse = p
        obtain ⟨restored, remRev⟩ := p
        dsimp only
        rw [hplr] at hfind
        refine ⟨_, rfl, assocGet_assocRemove_self _ _, ?_, ?_, ?_, rfl, rfl, ?_⟩
        · intro k ws hk hws
          cases hk
        · intro _
          exact hfind
        · intro hn
          exact absurd hfoc hn
        · simp [List.mem_filter]
      · rw [if_neg hfoc]
        refine ⟨_, rfl, assocGet_assocRemove_self _ _, ?_, ?_, ?_, rfl, rfl, ?_⟩
        · intro k ws hk hws
          cases hk
        · intro hf
          exact absurd hf hfoc
        · intro _
          rfl
        · simp [List.mem_filter]
  | some k0 =>
      dsimp only
      cases hget : assocGet s.workspaces k0 with
      | none =>
          dsimp only
          by_cases hfoc : s.focus.focused_window = some wid
          · rw [if_pos hfoc]
            dsimp only [FocusState.clear_focused]
            generalize hplr : popLiveRev (assocRemove s.windows wid)
              s.focus.focus_history.reverse = p
            obtain ⟨restored, remRev⟩ := p
            dsimp only
            rw [hplr] at hfind
            refine ⟨_, rfl, assocGet_assocRemove_self _ _, ?_, ?_, ?_, rfl,
              rfl, ?_⟩
            · intro k ws hk hws
              injection hk with hk'
              subst hk'
              rw [hget] at hws
              cases hws
            · intro _
              exact hfind
            · intro hn
              exact absurd hfoc hn
            · simp [List.mem_filter]
          · rw [if_neg hfoc]
            refine ⟨_, rfl, assocGet_assocRemove_self _ _, ?_, ?_, ?_, rfl,
              rfl, ?_⟩
            · intro k ws hk hws
              injection hk with hk'
              subst hk'
              rw [hget] at hws
              cases hws
            · intro hf
              exact absurd hf hfoc
            · intro _
              rfl
            · simp [List.mem_filter]
      | some ws0 =>
          dsimp only
          by_cases hfoc : s.focus.focused_window = some wid
          · rw [if_pos hfoc]
            dsimp only [FocusState.clear_focused]
            generalize hplr : popLiveRev (assocRemove s.windows wid)
              s.focus.focus_history.reverse = p
            obtain ⟨restored, remRev⟩ := p
            dsimp only
            rw [hplr] at hfind
            refine ⟨_, rfl, assocGet_assocRemove_self _ _, ?_, ?_, ?_, rfl,
              rfl, ?_⟩
            · intro k ws hk hws
              injection hk with hk'
              subst hk'
              rw [hget] at hws
              injection hws with hws'
              subst hws'
              exact assocGet_assocInsert_self _ _ _
            · intro _
              exact hfind
            · intro hn
              exact absurd hfoc hn
            · simp [List.mem_filter]
          · rw [if_neg hfoc]
            refine ⟨_, rfl, assocGet_assocRemove_self _ _, ?_, ?_, ?_, rfl,
              rfl, ?_⟩
            · intro k ws hk hws
              injection hk with hk'
              subst hk'
              rw [hget] at hws
              injection hws with hws'
              subst hws'
              exact assocGet_assocInsert_self _ _ _
            · intro hf
              exact absurd hf hfoc
            · intro _
              rfl
            · simp [List.mem_filter]

/-- C10: when `remove_window` removes the CURRENTLY FOCUSED window and
restores focus from the history, the restoration assigns
`focus.focused_window` directly and nothing else: the focused
workspace is left exactly as it was, and every surviving window keeps
its state flags (in fact its whole record) untouched — in particular
no `FOCUSED` flag is set on the restored window, unlike
`State::focus_window`. -/
theorem remove_window_restore_frame (s : State) (wid : WindowId) (w : Window)
    (hw : assocGet s.windows wid = some w)
    (hfoc : s.focus.focused_window = some wid) :
    ∃ s2, s.remove_window wid = some (w, s2) ∧
      s2.focus.focused_workspace = s.focus.focused_workspace ∧
      ∀ k w2, ¬ k = wid → assocGet s.windows k = some w2 →
        assocGet s2.windows k = some w2 := by
  unfold State.remove_window
  rw [hw]
  dsimp only
  cases hwk : w.workspace with
  | none =>
      dsimp only
      rw [if_pos hfoc]
      dsimp only [FocusState.clear_focused]
      generalize hplr : popLiveRev (assocRemove s.windows wid)
        s.focus.focus_history.reverse = p
      obtain ⟨restored, remRev⟩ := p
      dsimp only
      refine ⟨_, rfl, rfl, ?_⟩
      intro k w2 hk hget2
      rw [assocGet_assocRemove_ne _ _ _ hk]
      exact hget2
  | some k0 =>
      dsimp only
      cases hget : assocGet s.workspaces k0 with
      | none =>
          dsimp only
          rw [if_pos hfoc]
          dsimp only [FocusState.clear_focused]
          generalize hplr : popLiveRev (assocRemove s.windows wid)
            s.focus.focus_history.reverse = p
          obtain ⟨restored, remRev⟩ := p
          dsimp only
          refine ⟨_, rfl, rfl, ?_⟩
          intro k w2 hk hget2
          rw [assocGet_assocRemove_ne _ _ _ hk]
          exact hget2
      | some ws0 =>
          dsimp only
          rw [if_pos hfoc]
          dsimp only [FocusState.clear_focused]
          generalize hplr : popLiveRev (assocRemove s.windows wid)
            s.focus.focus_history.reverse = p
          obtain ⟨restored, remRev⟩ := p
          dsimp only
          refine ⟨_, rfl, rfl, ?_⟩
          intro k w2 hk hget2
          rw [assocGet_assocRemove_ne _ _ _ hk]
          exact hget2

/-- A state with window 1 focused (on workspace 1), window 2 alive, a
focus history holding 2, and window 1 present in scratchpad and marks:
exercises every clause of `remove_window`. -/
def sC5 : State :=
  { State.new ⟨⟨0, 0⟩, false⟩ with
    windows := [(1, wC4), (2, wC4b)]
    focus := { focused_window := some 1
               previous_window := none
               focused_workspace := some 1
               focus_history := [2, 1] }
    scratchpad := [1, 2]
    marks := [("m", 1), ("n", 2)] }

/-- Witness for `remove_window_spec': removing the focused window 1
from `sC5`. -/
theorem remove_window_spec_witness :
    assocGet sC5.windows 1 = some wC4 ∧
    (∃ s2, sC5.remove_window 1 = some (wC4, s2) ∧
      assocGet s2.windows 1 = none ∧
      (∀ k ws, wC4.workspace = some k → assocGet sC5.workspaces k = some ws →
        assocGet s2.workspaces k = some (ws.remove_window 1)) ∧
      (sC5.focus.focused_window = some 1 →
        s2.focus.focused_window = sC5.focus.focus_history.reverse.find?
          (fun i => (assocGet (assocRemove sC5.windows 1) i).isSome)) ∧
      (¬ sC5.focus.focused_window = some 1 →
        s2.focus.focused_window = sC5.focus.focused_window) ∧
      s2.scratchpad = sC5.scratchpad.filter (fun i => i ≠ 1) ∧
      s2.marks = sC5.marks.filter (fun p => p.2 ≠ 1) ∧
      (1 : WindowId) ∉ s2.focus.focus_history) :=
  ⟨rfl, remove_window_spec sC5 1 wC4 rfl⟩

/-- Witness for `remove_window_restore_frame': removing the focused
window 1 from `sC5` leaves workspace focus and window 2's record
alone. -/
theorem remove_window_restore_frame_witness :
    assocGet sC5.windows 1 = some wC4 ∧
    sC5.focus.focused_window = some 1 ∧
    (∃ s2, sC5.remove_window 1 = some (wC4, s2) ∧
      s2.focus.focused_workspace = sC5.focus.focused_workspace ∧
      ∀ k w2, ¬ k = 1 → assocGet sC5.windows k = some w2 →
        assocGet s2.windows k = some w2) :=
  ⟨rfl, rfl, remove_window_restore_frame sC5 1 wC4 rfl rfl⟩

/-! ### C9: the focus history never exceeds 100 entries -/

/-- The state-mutating operations of `State` (state.rs), as one step
type: every public mutator of the struct that can run in any order. -/
inductive Op where
  | addWindow (w : Window)
  | removeWindow (wid : WindowId)
  | focusWindow (wid : WindowId)
  | switchWorkspace (k : WorkspaceId)
  | moveWindowToWorkspace (wid : WindowId) (k : WorkspaceId)
  | toggleScratchpad (wid : WindowId)
  | setMark (m : String) (wid : WindowId)
  | gotoMark (m : String)

/-- Run one operation (a removal that misses leaves the state as the
Rust early `return None` does). -/
def Op.apply (op : Op) (s : State) : State :=
  match op with
  | .addWindow w => s.add_window w
  | .removeWindow wid =>
      (match s.remove_window wid with
        | some (_, s2) => s2
        | none => s)
  | .focusWindow wid => s.focus_window wid
  | .switchWorkspace k => s.switch_workspace k
  | .moveWindowToWorkspace wid k => s.move_window_to_workspace wid k
  | .toggleScratchpad wid => s.toggle_scratchpad wid
  | .setMark m wid => s.set_mark m wid
  | .gotoMark m => s.goto_mark m

theorem add_window_focus (s : State) (w : Window) :
    (s.add_window w).focus = s.focus := by
  unfold State.add_window
  split
  · rfl
  · dsimp only
    repeat' split
    all_goals rfl

theorem move_window_to_workspace_focus (s : State) (wid : WindowId)
    (k : WorkspaceId) : (s.move_window_to_workspace wid k).focus = s.focus := by
  unfold State.move_window_to_workspace
  split
  · rfl
  · dsimp only
    repeat' split
    all_goals rfl

theorem toggle_scratchpad_focus (s : State) (wid : WindowId) :
    (s.toggle_scratchpad wid).focus = s.focus := by
  unfold State.toggle_scratchpad
  dsimp only
  repeat' split
  all_goals rfl

theorem set_mark_focus (s : State) (m : String) (wid : WindowId) :
    (s.set_mark m wid).focus = s.focus := rfl

/-- `FocusState::set_focused` keeps the history within the bound. -/
theorem set_focused_len (f : FocusState) (wid : WindowId)
    (h : f.focus_history.length ≤ 100) :
    (f.set_focused wid).focus_history.length ≤ 100 := by
  unfold FocusState.set_focused
  split
  · dsimp only
    cases hcur : f.focused_window with
    | none => exact h
    | some prev =>
        dsimp only
        have hl : (f.focus_history.filter (fun id => id ≠ prev)).length ≤
            100 := le_trans (List.length_filter_le _ _) h
        by_cases hgt : (f.focus_history.filter (fun id => id ≠ prev) ++
            [prev]).length > 100
        · rw [if_pos hgt, List.length_tail]
          simp only [List.length_append, List.length_singleton]
          omega
        · rw [if_neg hgt]
          omega
  · exact h

/-- `State::focus_window` keeps the history within the bound. -/
theorem focus_window_hist_len (s : State) (wid : WindowId)
    (h : s.focus.focus_history.length ≤ 100) :
    (s.focus_window wid).focus.focus_history.length ≤ 100 := by
  unfold State.focus_window
  split
  · exact h
  · try dsimp only
    cases hcur : s.focus.focused_window with
    | none =>
        try dsimp only
        split
        · try dsimp only
          split
          · exact set_focused_len s.focus wid h
          · exact set_focused_len s.focus wid h
        · exact set_focused_len s.focus wid h
    | some current =>
        try dsimp only
        cases hget : assocGet s.windows current with
        | none =>
            try dsimp only
            split
            · try dsimp only
              split
              · exact set_focused_len s.focus wid h
              · exact set_focused_len s.focus wid h
            · exact set_focused_len s.focus wid h
        | some wcur =>
            try dsimp only
            split
            · try dsimp only
              split
              · exact set_focused_len s.focus wid h
              · exact set_focused_len s.focus wid h
            · exact set_focused_len s.focus wid h

/-- `State::switch_workspace` keeps the history within the bound. -/
theorem switch_workspace_hist_len (s : State) (k : WorkspaceId)
    (h : s.focus.focus_history.length ≤ 100) :
    (s.switch_workspace k).focus.focus_history.length ≤ 100 := by
  unfold State.switch_workspace
  split
  · exact h
  · try dsimp only
    split
    · try dsimp only
      split
      · exact focus_window_hist_len _ _ h
      · exact h
    · exact h

/-- `State::goto_mark` keeps the history within the bound. -/
theorem goto_mark_hist_len (s : State) (m : String)
    (h : s.focus.focus_history.length ≤ 100) :
    (s.goto_mark m).focus.focus_history.length ≤ 100 := by
  unfold State.goto_mark
  split
  · exact h
  · try dsimp only
    split
    · try dsimp only
      split
      · split
        · exact switch_workspace_hist_len _ _
            (focus_window_hist_len _ _ h)
        · exact focus_window_hist_len _ _ h
      · exact focus_window_hist_len _ _ h
    · exact focus_window_hist_len _ _ h

/-- What `pop` leaves behind is no longer than the history it started
from. -/
theorem popLiveRev_snd_len (windows : List (WindowId × Window))
    (hist : List WindowId) :
    (popLiveRev windows hist).2.length ≤ hist.length := by
  induction hist with
  | nil => exact Nat.le_refl _
  | cons next rest ih =>
      unfold popLiveRev
      split
      · exact Nat.le_succ _
      · exact le_trans ih (Nat.le_succ _)

/-- `State::remove_window` keeps the history within the bound. -/
theorem remove_window_hist_len (s : State) (wid : WindowId)
    (h : s.focus.focus_history.length ≤ 100) :
    ∀ w s2, s.remove_window wid = some (w, s2) →
      s2.focus.focus_history.length ≤ 100 := by
  unfold State.remove_window
  cases hget : assocGet s.windows wid with
  | none =>
      intro w s2 hrw
      cases hrw
  | some w0 =>
      dsimp only
      intro w s2 hrw
      injection hrw with hpair
      injection hpair with hww hss
      subst hss
      cases hwk : w0.workspace with
      | none =>
          dsimp only
          by_cases hfoc : s.focus.focused_window = some wid
          · rw [if_pos hfoc]
            dsimp only [FocusState.clear_focused]
            generalize hplr : popLiveRev (assocRemove s.windows wid)
              s.focus.focus_history.reverse = p
            obtain ⟨restored, remRev⟩ := p
            dsimp only
            have hrem := popLiveRev_snd_len (assocRemove s.windows wid)
              s.focus.focus_history.reverse
            rw [hplr] at hrem
            simp only [List.length_reverse] at hrem
            calc ((remRev.reverse).filter (fun i => i ≠ wid)).length
                ≤ remRev.reverse.length := List.length_filter_le _ _
              _ ≤ 100 := by simpa using le_trans hrem h
          · rw [if_neg hfoc]
            exact le_trans (List.length_filter_le _ _) h
      | some k0 =>
          dsimp only
          cases hgw : assocGet s.workspaces k0 <;> dsimp only <;>
            (by_cases hfoc : s.focus.focused_window = some wid)
          · rw [if_pos hfoc]
            dsimp only [FocusState.clear_focused]
            generalize hplr : popLiveRev (assocRemove s.windows wid)
              s.focus.focus_history.reverse = p
            obtain ⟨restored, remRev⟩ := p
            dsimp only
            have hrem := popLiveRev_snd_len (assocRemove s.windows wid)
              s.focus.focus_history.reverse
            rw [hplr] at hrem
            simp only [List.length_reverse] at hrem
            calc ((remRev.reverse).filter (fun i => i ≠ wid)).length
                ≤ remRev.reverse.length := List.length_filter_le _ _
              _ ≤ 100 := by simpa using le_trans hrem h
          · rw [if_neg hfoc]
            exact le_trans (List.length_filter_le _ _) h
          · rw [if_pos hfoc]
            dsimp only [FocusState.clear_focused]
            generalize hplr : popLiveRev (assocRemove s.windows wid)
              s.focus.focus_history.reverse = p
            obtain ⟨restored, remRev⟩ := p
            dsimp only
            have hrem := popLiveRev_snd_len (assocRemove s.windows wid)
              s.focus.focus_history.reverse
            rw [hplr] at hrem
            simp only [List.length_reverse] at hrem
            calc ((remRev.reverse).filter (fun i => i ≠ wid)).length
                ≤ remRev.reverse.length := List.length_filter_le _ _
              _ ≤ 100 := by simpa using le_trans hrem h
          · rw [if_neg hfoc]
            exact le_trans (List.length_filter_le _ _) h

/-- Any single `State` operation keeps the focus history within 100
entries. -/
theorem op_apply_hist_len (s : State) (op : Op)
    (h : s.focus.focus_history.length ≤ 100) :
    (op.apply s).focus.focus_history.length ≤ 100 := by
  cases op with
  | addWindow w =>
      dsimp only [Op.apply]
      rw [add_window_focus]
      exact h
  | removeWindow wid =>
      dsimp only [Op.apply]
      rcases hrw : s.remove_window wid with _ | ⟨w, s2⟩
      · exact h
      · exact remove_window_hist_len s wid h w s2 hrw
  | focusWindow wid =>
      exact focus_window_hist_len s wid h
  | switchWorkspace k =>
      exact switch_workspace_hist_len s k h
  | moveWindowToWorkspace wid k =>
      dsimp only [Op.apply]
      rw [move_window_to_workspace_focus]
      exact h
  | toggleScratchpad wid =>
      dsimp only [Op.apply]
      rw [toggle_scratchpad_focus]
      exact h
  | setMark m wid =>
      dsimp only [Op.apply]
      rw [set_mark_focus]
      exact h
  | gotoMark m =>
      exact goto_mark_hist_len s m h

/-- At the 100-entry bound, recording a not-yet-recorded unfocused id
evicts the oldest (front) entry and appends the new one. -/
theorem set_focused_evicts (f : FocusState) (wid prev : WindowId)
    (hprev : f.focused_window = some prev) (hne : ¬ prev = wid)
    (hnotin : prev ∉ f.focus_history)
    (h100 : f.focus_history.length = 100) :
    (f.set_focused wid).focus_history = f.focus_history.tail ++ [prev] := by
  have hpush := (set_focused_push f wid prev hprev hne).2.2
  have hfe : f.focus_history.filter (fun i => i ≠ prev) =
      f.focus_history := by
    apply List.filter_eq_self.mpr
    intro a ha
    simp only [ne_eq, decide_eq_true_eq]
    intro he
    exact hnotin (he ▸ ha)
  rw [hfe] at hpush
  have hlen : (f.focus_history ++ [prev]).length > 100 := by
    simp [h100]
  rw [if_pos hlen] at hpush
  rw [hpush]
  cases hl : f.focus_history with
  | nil =>
      rw [hl] at h100
      cases h100
  | cons a t => rfl

/-- C9: the focus-history stack stays bounded by 100 entries: (i) each
`State` operation preserves the bound, (ii) any operation sequence run
from a fresh `State` obeys it, and (iii) once the bound is reached,
recording a newly unfocused window evicts the oldest entry (the stack
becomes `tail ++ [prev]`). -/
theorem focus_history_bounded :
    (∀ (s : State) (op : Op),
      s.focus.focus_history.length ≤ 100 →
      (op.apply s).focus.focus_history.length ≤ 100) ∧
    (∀ (cfg : Config) (ops : List Op),
      (ops.foldl (fun s op => op.apply s)
        (State.new cfg)).focus.focus_history.length ≤ 100) ∧
    (∀ (f : FocusState) (wid prev : WindowId),
      f.focused_window = some prev → ¬ prev = wid →
      prev ∉ f.focus_history → f.focus_history.length = 100 →
      (f.set_focused wid).focus_history =
        f.focus_history.tail ++ [prev]) := by
  refine ⟨op_apply_hist_len, ?_, set_focused_evicts⟩
  intro cfg ops
  have hgen : ∀ (l : List Op) (s : State),
      s.focus.focus_history.length ≤ 100 →
      (l.foldl (fun s op => op.apply s) s).focus.focus_history.length ≤
        100 := by
    intro l
    induction l with
    | nil =>
        intro s hs
        exact hs
    | cons op rest ih =>
        intro s hs
        exact ih _ (op_apply_hist_len s op hs)
  refine hgen ops _ ?_
  show (0 : Nat) ≤ 100
  omega

/-- A focus state at the 100-entry bound: ids 1..100 in the history,
id 0 focused and not yet recorded. -/
def f100 : FocusState :=
  { focused_window := some 0
    previous_window := none
    focused_workspace := none
    focus_history := (List.range 100).map (fun i => i + 1) }

/-- Witness for `focus_history_bounded`: the eviction clause at a
concrete 100-entry history. -/
theorem focus_history_bounded_witness :
    f100.focused_window = some 0 ∧
    ¬ (0 : WindowId) = 200 ∧
    (0 : WindowId) ∉ f100.focus_history ∧
    f100.focus_history.length = 100 ∧
    (f100.set_focused 200).focus_history =
      f100.focus_history.tail ++ [0] :=
  ⟨rfl, by decide, by decide, by decide,
    focus_history_bounded.2.2 f100 200 0 rfl (by decide) (by decide)
      (by decide)⟩

/-! ### C2: modifier-qualified pointer grabs -/

/-- When none of the four outer-third tests hold (a center-third
click), `ResizeEdge::from_point` falls through to `BottomRight`. -/
theorem from_point_center (px py : ℚ) (geo : Geometry)
    (h1 : ¬ px - (geo.x : ℚ) < (geo.width : ℚ) / 3)
    (h2 : ¬ px - (geo.x : ℚ) > (geo.width : ℚ) * 2 / 3)
    (h3 : ¬ py - (geo.y : ℚ) < (geo.height : ℚ) / 3)
    (h4 : ¬ py - (geo.y : ℚ) > (geo.height : ℚ) * 2 / 3) :
    ResizeEdge.from_point px py geo = .bottomRight := by
  unfold ResizeEdge.from_point
  dsimp only
  rw [if_neg (fun hc => h1 hc.1), if_neg (fun hc => h2 hc.1),
    if_neg (fun hc => h1 hc.1), if_neg (fun hc => h2 hc.1),
    if_neg h1, if_neg h2, if_neg h3, if_neg h4]

/-- A modifier-qualified left-button (272) press over a window starts
a `Move` grab with no active edges. -/
theorem on_pointer_button_move (core : Core) (wid : WindowId) (w : Window)
    (hsuper : flagsContain core.input_manager.modifiers Modifiers.SUPER =
      true)
    (hwat : core.state.window_at core.state.pointer_position.1
      core.state.pointer_position.2 = some wid)
    (hw : assocGet core.state.windows wid = some w) :
    (core.on_pointer_button 272 true).2.state.grabbed_window =
      some ⟨wid, w.geometry,
        (core.state.pointer_position.1, core.state.pointer_position.2),
        .move, 0⟩ := by
  unfold Core.on_pointer_button
  dsimp only
  rw [hsuper]
  rw [if_pos (by decide : (true && true) = true)]
  rw [hwat]
  dsimp only
  rw [hw]
  dsimp only
  rw [if_pos (by decide : (272 : Nat) = 272)]
  dsimp only
  rw [if_neg (by decide : ¬ (!true) = true)]
  rw [if_neg (by simp : ¬ (true && decide ((272 : Nat) = 272) &&
    (some (⟨wid, w.geometry,
      (core.state.pointer_position.1, core.state.pointer_position.2),
      GrabOperation.move, 0⟩ : GrabbedWindow)).isNone) = true)]

/-- A modifier-qualified right- or middle-button (273/274) press over
a window starts a `Resize` grab whose edges come from
`ResizeEdge::from_point` at the pointer position. -/
theorem on_pointer_button_resize (core : Core) (button : Nat)
    (wid : WindowId) (w : Window)
    (hsuper : flagsContain core.input_manager.modifiers Modifiers.SUPER =
      true)
    (hwat : core.state.window_at core.state.pointer_position.1
      core.state.pointer_position.2 = some wid)
    (hw : assocGet core.state.windows wid = some w)
    (hb : button = 273 ∨ button = 274) :
    (core.on_pointer_button button true).2.state.grabbed_window =
      some ⟨wid, w.geometry,
        (core.state.pointer_position.1, core.state.pointer_position.2),
        .resize, (ResizeEdge.from_point core.state.pointer_position.1
          core.state.pointer_position.2 w.geometry).to_edges⟩ := by
  have hb272 : ¬ button = 272 := by
    rcases hb with h | h <;> omega
  unfold Core.on_pointer_button
  dsimp only
  rw [hsuper]
  rw [if_pos (by decide : (true && true) = true)]
  rw [hwat]
  dsimp only
  rw [hw]
  dsimp only
  rw [if_neg hb272]
  rw [if_pos hb]
  dsimp only
  rw [if_neg (by decide : ¬ (!true) = true)]
  rw [if_neg (by simp [hb272] : ¬ (true && decide (button = 272) &&
    (some (⟨wid, w.geometry,
      (core.state.pointer_position.1, core.state.pointer_position.2),
      GrabOperation.resize,
      (ResizeEdge.from_point core.state.pointer_position.1
        core.state.pointer_position.2 w.geometry).to_edges⟩ :
          GrabbedWindow)).isNone) = true)]

/-- C2 (amended): on a `SUPER`-qualified press over a window, the left
button starts a `Move` grab with empty edges and the right or middle
button starts a `Resize` grab with the 3x3-grid edges of
`ResizeEdge::from_point` — where a CENTER-third click yields the
`BottomRight` fallback (an active `BOTTOM ||| RIGHT` resize grab), not
the absence of an operation that the original claim stated (see
`pointer_button_center_counterexample`). -/
theorem pointer_button_spec (core : Core) (button : Nat) (wid : WindowId)
    (w : Window)
    (hsuper : flagsContain core.input_manager.modifiers Modifiers.SUPER =
      true)
    (hwat : core.state.window_at core.state.pointer_position.1
      core.state.pointer_position.2 = some wid)
    (hw : assocGet core.state.windows wid = some w) :
    (button = 272 →
      (core.on_pointer_button button true).2.state.grabbed_window =
        some ⟨wid, w.geometry,
          (core.state.pointer_position.1, core.state.pointer_position.2),
          .move, 0⟩) ∧
    (button = 273 ∨ button = 274 →
      (core.on_pointer_button button true).2.state.grabbed_window =
        some ⟨wid, w.geometry,
          (core.state.pointer_position.1, core.state.pointer_position.2),
          .resize, (ResizeEdge.from_point core.state.pointer_position.1
            core.state.pointer_position.2 w.geometry).to_edges⟩) ∧
    (button = 273 ∨ button = 274 →
      ¬ core.state.pointer_position.1 - (w.geometry.x : ℚ) <
        (w.geometry.width : ℚ) / 3 →
      ¬ core.state.pointer_position.1 - (w.geometry.x : ℚ) >
        (w.geometry.width : ℚ) * 2 / 3 →
      ¬ core.state.pointer_position.2 - (w.geometry.y : ℚ) <
        (w.geometry.height : ℚ) / 3 →
      ¬ core.state.pointer_position.2 - (w.geometry.y : ℚ) >
        (w.geometry.height : ℚ) * 2 / 3 →
      (core.on_pointer_button button true).2.state.grabbed_window =
        some ⟨wid, w.geometry,
          (core.state.pointer_position.1, core.state.pointer_position.2),
          .resize, ResizeEdges.BOTTOM ||| ResizeEdges.RIGHT⟩) := by
  refine ⟨?_, ?_, ?_⟩
  · intro hb
    subst hb
    exact on_pointer_button_move core wid w hsuper hwat hw
  · intro hb
    exact on_pointer_button_resize core button wid w hsuper hwat hw hb
  · intro hb h1 h2 h3 h4
    rw [on_pointer_button_resize core button wid w hsuper hwat hw hb,
      from_point_center _ _ _ h1 h2 h3 h4]
    rfl

/-- A 300x300 window at the origin on workspace 1. -/
def wC2 : Window :=
  { Window.new 1 "term" "term" with
    geometry := ⟨0, 0, 300, 300⟩
    workspace := some 1 }

/-- A state hovering the pointer at (150, 150) — the exact center of
window 1 — with window 1 tiled on the focused workspace. -/
def sC2 : State :=
  { State.new ⟨⟨0, 0⟩, false⟩ with
    windows := [(1, wC2)]
    workspaces := [(1, { Workspace.new 1 "1" with tiled_windows := [1] })]
    focus := { focused_window := some 1
               previous_window := none
               focused_workspace := some 1
               focus_history := [] }
    pointer_position := (150, 150) }

/-- A core with the `SUPER` modifier held. -/
def coreC2 : Core :=
  { Core.new ⟨⟨0, 0⟩, false⟩ with
    state := sC2
    input_manager := ⟨Modifiers.SUPER⟩ }

/-- C2 counterexample: the pointer sits in the CENTER third of the
hovered window (both coordinates inside the middle band), yet a
`SUPER`-qualified right-button press creates a `Resize` grab with
active edges `BOTTOM ||| RIGHT` (= 10) — the claim said a center-third
click starts no operation. -/
theorem pointer_button_center_counterexample :
    coreC2.state.window_at coreC2.state.pointer_position.1
      coreC2.state.pointer_position.2 = some 1 ∧
    ¬ (150 : ℚ) - (wC2.geometry.x : ℚ) < (wC2.geometry.width : ℚ) / 3 ∧
    ¬ (150 : ℚ) - (wC2.geometry.x : ℚ) > (wC2.geometry.width : ℚ) * 2 / 3 ∧
    ¬ (150 : ℚ) - (wC2.geometry.y : ℚ) < (wC2.geometry.height : ℚ) / 3 ∧
    ¬ (150 : ℚ) - (wC2.geometry.y : ℚ) > (wC2.geometry.height : ℚ) * 2 / 3 ∧
    (coreC2.on_pointer_button 273 true).2.state.grabbed_window =
      some ⟨1, wC2.geometry, ((150 : ℚ), (150 : ℚ)), .resize, 10⟩ := by
  refine ⟨rfl, ?_, ?_, ?_, ?_, ?_⟩
  · show ¬ (150 : ℚ) - ((0 : Int) : ℚ) < ((300 : Nat) : ℚ) / 3
    norm_num
  · show ¬ (150 : ℚ) - ((0 : Int) : ℚ) > ((300 : Nat) : ℚ) * 2 / 3
    norm_num
  · show ¬ (150 : ℚ) - ((0 : Int) : ℚ) < ((300 : Nat) : ℚ) / 3
    norm_num
  · show ¬ (150 : ℚ) - ((0 : Int) : ℚ) > ((300 : Nat) : ℚ) * 2 / 3
    norm_num
  · rw [on_pointer_button_resize coreC2 273 1 wC2 rfl rfl rfl (Or.inl rfl)]
    rw [from_point_center]
    · rfl
    · show ¬ (150 : ℚ) - ((0 : Int) : ℚ) < ((300 : Nat) : ℚ) / 3
      norm_num
    · show ¬ (150 : ℚ) - ((0 : Int) : ℚ) > ((300 : Nat) : ℚ) * 2 / 3
      norm_num
    · show ¬ (150 : ℚ) - ((0 : Int) : ℚ) < ((300 : Nat) : ℚ) / 3
      norm_num
    · show ¬ (150 : ℚ) - ((0 : Int) : ℚ) > ((300 : Nat) : ℚ) * 2 / 3
      norm_num

/-- Witness for `pointer_button_spec` at the concrete hovering core. -/
theorem pointer_button_spec_witness :
    flagsContain coreC2.input_manager.modifiers Modifiers.SUPER = true ∧
    coreC2.state.window_at coreC2.state.pointer_position.1
      coreC2.state.pointer_position.2 = some 1 ∧
    assocGet coreC2.state.windows 1 = some wC2 ∧
    (((274 : Nat) = 272 →
      (coreC2.on_pointer_button 274 true).2.state.grabbed_window =
        some ⟨1, wC2.geometry,
          (coreC2.state.pointer_position.1, coreC2.state.pointer_position.2),
          .move, 0⟩) ∧
    ((274 : Nat) = 273 ∨ (274 : Nat) = 274 →
      (coreC2.on_pointer_button 274 true).2.state.grabbed_window =
        some ⟨1, wC2.geometry,
          (coreC2.state.pointer_position.1, coreC2.state.pointer_position.2),
          .resize, (ResizeEdge.from_point coreC2.state.pointer_position.1
            coreC2.state.pointer_position.2 wC2.geometry).to_edges⟩) ∧
    ((274 : Nat) = 273 ∨ (274 : Nat) = 274 →
      ¬ coreC2.state.pointer_position.1 - (wC2.geometry.x : ℚ) <
        (wC2.geometry.width : ℚ) / 3 →
      ¬ coreC2.state.pointer_position.1 - (wC2.geometry.x : ℚ) >
        (wC2.geometry.width : ℚ) * 2 / 3 →
      ¬ coreC2.state.pointer_position.2 - (wC2.geometry.y : ℚ) <
        (wC2.geometry.height : ℚ) / 3 →
      ¬ coreC2.state.pointer_position.2 - (wC2.geometry.y : ℚ) >
        (wC2.geometry.height : ℚ) * 2 / 3 →
      (coreC2.on_pointer_button 274 true).2.state.grabbed_window =
        some ⟨1, wC2.geometry,
          (coreC2.state.pointer_position.1, coreC2.state.pointer_position.2),
          .resize, ResizeEdges.BOTTOM ||| ResizeEdges.RIGHT⟩)) :=
  ⟨rfl, rfl, rfl, pointer_button_spec coreC2 274 1 wC2 rfl rfl rfl⟩

/-! ### C8: `Command::parse` (src/input.rs of the legacy crate) -/

/-- `Toggle` (input.rs). -/
inductive Toggle where
  | enable
  | disable
  | «switch»
deriving Repr, DecidableEq

/-- `FocusTarget` (input.rs). -/
inductive FocusTarget where
  | left
  | right
  | up
  | down
  | parent
  | child
  | modeToggle
  | output (s : String)
  | workspace
deriving Repr, DecidableEq

/-- `MoveTarget` (input.rs). -/
inductive MoveTarget where
  | left
  | right
  | up
  | down
  | position (x y : Int)
  | center
  | absolute (x y : Int)
  | output (s : String)
deriving Repr, DecidableEq

/-- `ResizeOp` (input.rs). -/
inductive ResizeOp where
  | grow
  | shrink
  | set
deriving Repr, DecidableEq

/-- `ResizeDirection` (input.rs). -/
inductive ResizeDirection where
  | width (op : ResizeOp)
  | height (op : ResizeOp)
  | left
  | right
  | up
  | down
deriving Repr, DecidableEq

/-- `SplitCmd` (input.rs). -/
inductive SplitCmd where
  | horizontal
  | vertical
  | toggle
  | none
deriving Repr, DecidableEq

/-- `LayoutCmd` (input.rs). -/
inductive LayoutCmd where
  | default
  | tabbed
  | stacked
  | splitV
  | splitH
  | toggle
  | toggleSplit
  | toggleAll
deriving Repr, DecidableEq

/-- `WorkspaceTarget` (input.rs). -/
inductive WorkspaceTarget where
  | name (s : String)
  | number (n : Nat)
  | next
  | prev
  | nextOnOutput
  | prevOnOutput
  | backAndForth
deriving Repr, DecidableEq

/-- `GapOp` (input.rs). -/
inductive GapOp where
  | set (v : Int)
  | plus (v : Int)
  | minus (v : Int)
  | toggle (v : Int)
deriving Repr, DecidableEq

/-- `GapCmd` (input.rs). -/
inductive GapCmd where
  | inner (op : GapOp)
  | outer (op : GapOp)
  | horizontal (op : GapOp)
  | vertical (op : GapOp)
  | top (op : GapOp)
  | right (op : GapOp)
  | bottom (op : GapOp)
  | left (op : GapOp)
deriving Repr, DecidableEq

/-- `BarCmd` (input.rs). -/
inductive BarCmd where
  | mode (s : String)
  | hidden (t : Toggle)
deriving Repr, DecidableEq

/-- `Command` (input.rs). -/
inductive Command where
  | exec (s : String)
  | execAlways (s : String)
  | kill
  | focus (t : FocusTarget)
  | move (t : MoveTarget)
  | resize (d : ResizeDirection) (amount : Int)
  | floating (t : Toggle)
  | fullscreen (t : Toggle)
  | sticky (t : Toggle)
  | split (c : SplitCmd)
  | layout (c : LayoutCmd)
  | workspace (t : WorkspaceTarget)
  | moveToWorkspace (t : WorkspaceTarget)
  | scratchpadShow
  | moveToScratchpad
  | mark (s : String)
  | unmark (s : Option String)
  | gotoMark (s : String)
  | mode (s : String)
  | reload
  | restart
  | exit
  | gaps (c : GapCmd)
  | bar (c : BarCmd)
  | unknown (s : String)
deriving Repr, DecidableEq

/-- `str::splitn(2, ' ')` on a character list: everything before the
first space, and (when a space exists) everything after it. -/
def splitFirstSpace : List Char → List Char × Option (List Char)
  | [] => ([], none)
  | c :: rest =>
      if c = ' ' then ([], some rest)
      else
        let (a, b) := splitFirstSpace rest
        (c :: a, b)

/-- `str::splitn(2, ' ')`: `parts[0]` and the optional `parts[1]`. -/
def splitn2Space (s : String) : String × Option String :=
  let (a, b) := splitFirstSpace s.data
  (⟨a⟩, b.map (fun l => ⟨l⟩))

/-- `str::trim_end_matches("px")` on a reversed character list:
repeatedly strip a trailing `px`. -/
def stripPxRev : List Char → List Char
  | 'x' :: 'p' :: rest => stripPxRev rest
  | l => l

/-- `str::trim_end_matches("px")`. -/
def trimEndPx (s : String) : String :=
  ⟨(stripPxRev s.data.reverse).reverse⟩

/-- `Command::parse_move` (the early `return`s become the `else`
arms). -/
def Command.parse_move (args : String) : Command :=
  let parts := splitWs args
  match parts with
  | [] => .unknown ("move " ++ args)
  | p0 :: _ =>
      let c := lowerAscii p0
      if c = "left" then .move .left
      else if c = "right" then .move .right
      else if c = "up" then .move .up
      else if c = "down" then .move .down
      else if c = "center" then .move .center
      else if c = "scratchpad" then .moveToScratchpad
      else if c = "container" ∨ c = "window" then
        (if 4 ≤ parts.length ∧ parts.getD 1 "" = "to" ∧
            parts.getD 2 "" = "workspace" then
          let ws := " ".intercalate (parts.drop 3)
          match parseU32? ws with
          | some num => .moveToWorkspace (.number num)
          | Option.none => .moveToWorkspace (.name ws)
        else .unknown ("move " ++ args))
      else if c = "position" then
        (if 3 ≤ parts.length then
          match parseI32? (parts.getD 1 ""), parseI32? (parts.getD 2 "") with
          | some x, some y => .move (.position x y)
          | _, _ => .unknown ("move " ++ args)
        else .unknown ("move " ++ args))
      else .unknown ("move " ++ args)

/-- `Command::parse_resize` (the early `return`s become `Option`
matches). -/
def Command.parse_resize (args : String) : Command :=
  let parts := splitWs args
  if parts.length < 2 then .unknown ("resize " ++ args)
  else
    let opOpt : Option ResizeOp :=
      (if lowerAscii (parts.getD 0 "") = "grow" then some .grow
       else if lowerAscii (parts.getD 0 "") = "shrink" then some .shrink
       else if lowerAscii (parts.getD 0 "") = "set" then some .set
       else none)
    match opOpt with
    | Option.none => .unknown ("resize " ++ args)
    | some op =>
        let dirOpt : Option ResizeDirection :=
          (if lowerAscii (parts.getD 1 "") = "width" then some (.width op)
           else if lowerAscii (parts.getD 1 "") = "height" then
             some (.height op)
           else if lowerAscii (parts.getD 1 "") = "left" then some .left
           else if lowerAscii (parts.getD 1 "") = "right" then some .right
           else if lowerAscii (parts.getD 1 "") = "up" then some .up
           else if lowerAscii (parts.getD 1 "") = "down" then some .down
           else none)
        match dirOpt with
        | Option.none => .unknown ("resize " ++ args)
        | some direction =>
            let amount : Int :=
              if 3 ≤ parts.length then
                (parseI32? (trimEndPx (parts.getD 2 ""))).getD 10
              else 10
            .resize direction amount

/-- `Command::parse`. -/
def Command.parse (input : String) : Command :=
  let s := trimAscii input
  let (p0, rest) := splitn2Space s
  let cmd := lowerAscii p0
  let args := trimAscii (rest.getD "")
  if cmd = "exec" then .exec args
  else if cmd = "exec_always" then .execAlways args
  else if cmd = "kill" then .kill
  else if cmd = "focus" then
    (let a := lowerAscii args
     if a = "left" then .focus .left
     else if a = "right" then .focus .right
     else if a = "up" then .focus .up
     else if a = "down" then .focus .down
     else if a = "parent" then .focus .parent
     else if a = "child" then .focus .child
     else if a = "mode_toggle" then .focus .modeToggle
     else .unknown s)
  else if cmd = "move" then Command.parse_move args
  else if cmd = "floating" then
    (let a := lowerAscii args
     if a = "enable" then .floating .enable
     else if a = "disable" then .floating .disable
     else if a = "toggle" ∨ a = "" then .floating .«switch»
     else .unknown s)
  else if cmd = "fullscreen" then
    (let a := lowerAscii args
     if a = "enable" then .fullscreen .enable
     else if a = "disable" then .fullscreen .disable
     else if a = "toggle" ∨ a = "" then .fullscreen .«switch»
     else .unknown s)
  else if cmd = "split" then
    (let a := lowerAscii args
     if a = "horizontal" ∨ a = "h" then .split .horizontal
     else if a = "vertical" ∨ a = "v" then .split .vertical
     else if a = "toggle" ∨ a = "t" then .split .toggle
     else if a = "none" ∨ a = "n" then .split .none
     else .unknown s)
  else if cmd = "layout" then
    (let a := lowerAscii args
     if a = "default" then .layout .default
     else if a = "tabbed" then .layout .tabbed
     else if a = "stacked" ∨ a = "stacking" then .layout .stacked
     else if a = "splitv" then .layout .splitV
     else if a = "splith" then .layout .splitH
     else if a = "toggle" then .layout .toggle
     else if a = "toggle split" then .layout .toggleSplit
     else if a = "toggle all" then .layout .toggleAll
     else .unknown s)
  else if cmd = "workspace" then
    (let a := lowerAscii args
     if a = "next" then .workspace .next
     else if a = "prev" ∨ a = "previous" then .workspace .prev
     else if a = "next_on_output" then .workspace .nextOnOutput
     else if a = "prev_on_output" then .workspace .prevOnOutput
     else if a = "back_and_forth" then .workspace .backAndForth
     else
       match parseU32? args with
       | some num => .workspace (.number num)
       | Option.none => .workspace (.name args))
  else if cmd = "scratchpad" then
    (if lowerAscii args = "show" then .scratchpadShow else .unknown s)
  else if cmd = "mark" then .mark args
  else if cmd = "unmark" then
    .unmark (if args = "" then none else some args)
  else if cmd = "mode" then .mode args
  else if cmd = "reload" then .reload
  else if cmd = "restart" then .restart
  else if cmd = "exit" then .exit
  else if cmd = "resize" then Command.parse_resize args
  else .unknown s

/-- C8 counterexample: the arguments are not in the recognized
vocabulary — the amount `abc` is not a number — yet `parse` does NOT
yield `Unknown`: `unwrap_or(10)` silently substitutes the default
amount.  And for an unrecognized command word the `Unknown` payload is
the TRIMMED text, not the original text. -/
theorem parse_unrecognized_counterexample :
    Command.parse "resize grow width abc" =
      .resize (.width .grow) 10 ∧
    ¬ Command.parse "resize grow width abc" =
      .unknown "resize grow width abc" ∧
    Command.parse "  frobnicate now  " = .unknown "frobnicate now" ∧
    ¬ Command.parse "  frobnicate now  " = .unknown "  frobnicate now  " :=
  ⟨by decide, by decide, by decide, by decide⟩

/-- C8 (amended): `Command::parse` is total (it always returns a
command), and any input whose leading command word — lowercased first
space-separated token of the trimmed input — is outside the recognized
vocabulary parses to `Unknown` carrying the TRIMMED input text.
Unrecognized ARGUMENTS, however, do not always degrade to `Unknown`:
a `resize` with a well-formed operation and direction but an
unparseable amount silently falls back to the default amount 10
(see `parse_unrecognized_counterexample`). -/
theorem parse_spec :
    (∀ s : String, ∃ c : Command, Command.parse s = c) ∧
    (∀ s : String,
      lowerAscii (splitn2Space (trimAscii s)).1 ∉
        (["exec", "exec_always", "kill", "focus", "move", "floating",
          "fullscreen", "split", "layout", "workspace", "scratchpad",
          "mark", "unmark", "mode", "reload", "restart", "exit",
          "resize"] : List String) →
      Command.parse s = .unknown (trimAscii s)) ∧
    (∀ args : String,
      3 ≤ (splitWs args).length →
      lowerAscii ((splitWs args).getD 0 "") = "grow" →
      lowerAscii ((splitWs args).getD 1 "") = "width" →
      parseI32? (trimEndPx ((splitWs args).getD 2 "")) = none →
      Command.parse_resize args = .resize (.width .grow) 10) := by
  refine ⟨fun s => ⟨_, rfl⟩, ?_, ?_⟩
  · intro s hcmd
    unfold Command.parse
    dsimp only
    generalize hsp : splitn2Space (trimAscii s) = p
    obtain ⟨p0, rest⟩ := p
    rw [hsp] at hcmd
    dsimp only at hcmd ⊢
    simp only [List.mem_cons, List.not_mem_nil, or_false, not_or] at hcmd
    obtain ⟨h1, h2, h3, h4, h5, h6, h7, h8, h9, h10, h11, h12, h13, h14,
      h15, h16, h17, h18⟩ := hcmd
    rw [if_neg h1, if_neg h2, if_neg h3, if_neg h4, if_neg h5, if_neg h6,
      if_neg h7, if_neg h8, if_neg h9, if_neg h10, if_neg h11, if_neg h12,
      if_neg h13, if_neg h14, if_neg h15, if_neg h16, if_neg h17,
      if_neg h18]
  · intro args hlen hop hdir hamt
    unfold Command.parse_resize
    dsimp only
    rw [if_neg (by omega : ¬ (splitWs args).length < 2)]
    rw [if_pos hop]
    dsimp only
    rw [if_pos hdir]
    dsimp only
    rw [if_pos hlen, hamt]
    rfl

/-- Witness for `parse_spec`: an input with an unrecognized leading
word degrades to `Unknown` of the trimmed text. -/
theorem parse_spec_witness :
    (lowerAscii (splitn2Space (trimAscii "  frobnicate now")).1 ∉
      (["exec", "exec_always", "kill", "focus", "move", "floating",
        "fullscreen", "split", "layout", "workspace", "scratchpad",
        "mark", "unmark", "mode", "reload", "restart", "exit",
        "resize"] : List String)) ∧
    Command.parse "  frobnicate now" =
      .unknown (trimAscii "  frobnicate now") :=
  ⟨by decide, parse_spec.2.1 "  frobnicate now" (by decide)⟩

end Fluxway
